import Mathlib

/-!
# Verification of the winky browser-automation agent

Shallow embedding, in Lean 4, of the parts of the `winky` code base that the
specification's claims are about:

* `src/actions/base.py` — `ActionResult`
* `src/core/executor.py` — `Executor.execute_task`, `Executor.execute_plan`
* `src/actions/loop.py` — `LoopAction.execute`, `_execute_step`,
  `_extract_inline`, `_click_inline`, `_wait_inline`, `_paginate`
* `src/actions/extract.py` — `ExtractAction.execute`, `_extract_complex`
* `src/actions/wait.py` — `WaitAction.execute`
* `src/session_logging/action_logger.py` — `ActionLogger`
* `src/session_logging/replayer.py` — `Replayer.replay`, `_execute_action`

Python dynamic values are embedded as the inductive `Value`; Python dicts as
ordered association lists; the Playwright page / browser world as an abstract
state type `W`, with every Playwright call modelled as an environment
function that can either return a result or raise an exception
(`ExceptW W α := W → Except String α × W`).  Python `try/except` becomes
`catchW`.  Timestamps and `uuid` session identifiers are external inputs,
modelled as explicit arguments (a `Nat` clock, a caller-supplied hex string).
-/

/-- JSON-like dynamic values: the Python values that flow through the program
(task params, extracted data, log records). -/
inductive Value where
  | null : Value
  | bool (b : Bool) : Value
  | nat (n : Nat) : Value
  | str (s : String) : Value
  | list (l : List Value) : Value
  | dict (l : List (String × Value)) : Value
deriving Repr

/-- Python truthiness (`bool(v)`) for the embedded values. -/
def vTruthy : Value → Bool
  | .null => false
  | .bool b => b
  | .nat n => n != 0
  | .str s => s != ""
  | .list l => !l.isEmpty
  | .dict l => !l.isEmpty

/-- `d.get(k)` on a Python dict: first binding of `k`, if any. -/
def dictFind (l : List (String × Value)) (k : String) : Option Value :=
  match l with
  | [] => none
  | (k', v) :: t => if k' == k then some v else dictFind t k

/-- `d.get(k, default)` on a Python dict. -/
def dictGetD (l : List (String × Value)) (k : String) (default : Value) : Value :=
  (dictFind l k).getD default

/-- `d[k] = v` on a Python dict: replaces the binding in place if the key
exists, appends it otherwise (insertion-ordered dict semantics). -/
def dictSet (l : List (String × Value)) (k : String) (v : Value) :
    List (String × Value) :=
  match l with
  | [] => [(k, v)]
  | (k', v') :: t => if k' == k then (k, v) :: t else (k', v') :: dictSet t k v

/-- Lookup inside a `Value` that is expected to be a dict
(`v.get(k)`, `None` when `v` is not a dict or the key is missing). -/
def vGet (v : Value) (k : String) : Option Value :=
  match v with
  | .dict l => dictFind l k
  | _ => none

/-- `v.get(k, default)` on a `Value` dict. -/
def vGetD (v : Value) (k : String) (default : Value) : Value :=
  (vGet v k).getD default

/-- ASCII lower-casing of one character, modelling `str.lower()` on the
characters that occur in the program's error messages. -/
def chLower (c : Char) : Char :=
  if 'A' ≤ c && c ≤ 'Z' then Char.ofNat (c.toNat + 32) else c

/-- Boolean "is prefix of" on character lists. -/
def chPfx : List Char → List Char → Bool
  | [], _ => true
  | _ :: _, [] => false
  | a :: as, b :: bs => a == b && chPfx as bs

/-- Boolean "occurs as a contiguous substring" on character lists. -/
def chSub (pat : List Char) : List Char → Bool
  | [] => chPfx pat []
  | c :: t => chPfx pat (c :: t) || chSub pat t

/-- `"timeout" in s.lower()` — the check the executor performs on an error
message before reloading the page. -/
def containsTimeout (s : String) : Bool :=
  chSub "timeout".toList (s.toList.map chLower)

/-- The characters of `s` before the first occurrence of `pat`
(all of `s` when `pat` does not occur): `s.split(pat)[0]`. -/
def chTakeBefore (pat : List Char) : List Char → List Char
  | [] => []
  | c :: t => if chPfx pat (c :: t) then [] else c :: chTakeBefore pat t

/-- `s.split(pat)[0]` for a non-empty pattern. -/
def splitFirst (s pat : String) : String :=
  String.mk (chTakeBefore pat.toList s.toList)

/-- Rough `str(v)` used only inside error-message interpolation. -/
def vStr : Value → String
  | .null => "None"
  | .bool b => if b then "True" else "False"
  | .nat n => toString n
  | .str s => s
  | .list _ => "[...]"
  | .dict _ => "{...}"

/-- `ActionResult` from `src/actions/base.py`: success flag, action name,
optional data, optional error message, metadata dict (`metadata or {}`). -/
structure ActionResult where
  success : Bool
  action_name : String
  data : Option Value := none
  error : Option String := none
  metadata : List (String × Value) := []
deriving Repr

/-- `ActionResult.to_dict` from `src/actions/base.py`. -/
def ActionResult.toDict (r : ActionResult) : Value :=
  .dict [("action", .str r.action_name), ("success", .bool r.success),
         ("data", r.data.getD .null),
         ("error", match r.error with | some e => .str e | none => .null),
         ("metadata", .dict r.metadata)]

/-- Stateful computations over an abstract browser world `W` that may raise a
Python exception (modelled as its message string).  Exceptions do not roll
back world changes made before the raise. -/
def ExceptW (W : Type) (α : Type) := W → Except String α × W

/-- `pure` for `ExceptW`. -/
def pureW {W α : Type} (a : α) : ExceptW W α := fun w => (.ok a, w)

/-- Sequencing for `ExceptW`; a raised exception propagates. -/
def bindW {W α β : Type} (m : ExceptW W α) (f : α → ExceptW W β) :
    ExceptW W β := fun w =>
  match m w with
  | (.ok a, w') => f a w'
  | (.error e, w') => (.error e, w')

/-- Raising an exception. -/
def throwW {W α : Type} (e : String) : ExceptW W α := fun w => (.error e, w)

/-- Python `try/except Exception as e` around a computation. -/
def catchW {W α : Type} (m : ExceptW W α) (h : String → ExceptW W α) :
    ExceptW W α := fun w =>
  match m w with
  | (.error e, w') => h e w'
  | ok => ok

/-! ## `src/session_logging/action_logger.py` — `ActionLogger`

The logs directory is modelled as an in-memory store from file path to the
JSON value written there (`json.dump`/`json.load` round-trip on
JSON-representable data is the identity, so the file holds the `Value`
itself).  `datetime.now()` is an external input: callers pass the current
clock tick, and `isoformat` is an injective rendering of that tick. -/

/-- One entry of `ActionLogger.actions`, as built by `log_action`. -/
structure LogEntry where
  action : String
  params : List (String × Value)
  result : Value
  success : Bool
  error : Option String
  timestamp : String
deriving Repr

/-- The JSON object `log_action` appends (what ends up in the saved file). -/
def LogEntry.toValue (e : LogEntry) : Value :=
  .dict [("action", .str e.action), ("params", .dict e.params),
         ("result", e.result), ("success", .bool e.success),
         ("error", match e.error with | some s => .str s | none => .null),
         ("timestamp", .str e.timestamp)]

/-- `datetime.isoformat()` of the abstract clock tick. -/
def isoformat (t : Nat) : String := "1970-01-01T00:00:" ++ toString t

/-- Mutable state of an `ActionLogger`, together with the files it has
written (`logs_dir` contents). -/
structure LoggerState where
  logs_dir : String
  session_id : Option String := none
  goal : Option String := none
  actions : List LogEntry := []
  start_time : Option Nat := none
  fs : List (String × Value) := []

/-- `os.path.join(dir, name)` for a directory path without trailing slash. -/
def joinPath (dir name : String) : String := dir ++ "/" ++ name

/-- `ActionLogger.start_session`.  The fresh `uuid4().hex[:8]` suffix is an
external input `sidHex`; `now` is the clock tick. -/
def startSession (ls : LoggerState) (sidHex : String) (now : Nat)
    (goal : String) : String × LoggerState :=
  let sid := "session_" ++ sidHex
  (sid, { ls with session_id := some sid, goal := some goal, actions := [],
                  start_time := some now })

/-- `ActionLogger.log_action`. -/
def logAction (ls : LoggerState) (now : Nat) (action : String)
    (params : List (String × Value)) (result : Value) (success : Bool)
    (error : Option String) : LoggerState :=
  { ls with actions := ls.actions ++
      [{ action := action, params := params, result := result,
         success := success, error := error, timestamp := isoformat now }] }

/-- The `log_data` dict `end_session` serialises to the session file. -/
def sessionValue (ls : LoggerState) (sid : String) (endTime : Nat)
    (success : Bool) (error : Option String) : Value :=
  .dict [("session_id", .str sid),
         ("goal", match ls.goal with | some g => .str g | none => .null),
         ("start_time", match ls.start_time with
                        | some t => .str (isoformat t) | none => .null),
         ("end_time", .str (isoformat endTime)),
         ("duration_seconds", match ls.start_time with
                              | some t => .nat (endTime - t) | none => .nat 0),
         ("success", .bool success),
         ("error", match error with | some e => .str e | none => .null),
         ("action_count", .nat ls.actions.length),
         ("actions", .list (ls.actions.map LogEntry.toValue))]

/-- `ActionLogger.end_session`: seals the current session, writes the session
file, resets the in-memory session, and returns the file path. -/
def endSession (ls : LoggerState) (now : Nat) (success : Bool)
    (error : Option String) : String × LoggerState :=
  match ls.session_id with
  | none => ("", ls)
  | some sid =>
    let v := sessionValue ls sid now success error
    let filepath := joinPath ls.logs_dir (sid ++ ".json")
    (filepath,
     { ls with fs := dictSet ls.fs filepath v, session_id := none,
               goal := none, actions := [], start_time := none })

/-- `ActionLogger.get_log`: reads the session file back, `None` if absent. -/
def getLog (ls : LoggerState) (session_id : String) : Option Value :=
  dictFind ls.fs (joinPath ls.logs_dir (session_id ++ ".json"))

/-! ## `src/core/executor.py` — `Executor`

A task is `{action, description, params}`.  Action execution
(`action.execute(**params)`) is abstracted by an environment function
`step : W → String → params → ActionResult × W`; per the actions' own
contract (their bodies are `try/except`-wrapped, see `extractExecute` and
`waitExecute` below) it returns an `ActionResult` and does not raise.
`page.reload` is a second environment function.  Because
`params["selector"] = ...` mutates the caller's task dict in place,
`executeTask` returns the (possibly updated) task alongside the result, and
`executePlan` threads the updated task list across plan attempts.
`last_inspect_result` is kept as the key/value list of the inspect data dict
(`InspectAction` only ever returns dict data, `src/actions/inspect.py`). -/

/-- A planner task: `{action, description, params}`.  (`Task` itself is
taken by the Lean core library.) -/
structure PlanTask where
  action : String
  description : String := ""
  params : List (String × Value) := []
deriving Repr

/-- The executor's environment: action execution and `page.reload` over the
abstract world, plus the fresh `uuid4().hex[:8]` used by `start_session`. -/
structure ExecEnv (W : Type) where
  step : W → String → List (String × Value) → ActionResult × W
  reload : W → W
  sidHex : String := ""

/-- The keys of `Executor.action_registry`. -/
def registryNames : List String :=
  ["click", "navigate", "extract", "type_text", "wait", "loop", "reload",
   "tab", "scroll", "screenshot", "inspect"]

/-- One entry of `Executor.collected_data`:
`{"action": ..., "data": ..., "save_as": params.get("save_as")}`. -/
structure CollectedEntry where
  action : String
  data : Value
  save_as : Option Value
deriving Repr

/-- Mutable attributes of an `Executor`, plus its logger, the world and the
clock used for log timestamps. -/
structure ExecState (W : Type) where
  world : W
  collected_data : List CollectedEntry := []
  last_inspect : Option (List (String × Value)) := none
  logger : LoggerState
  clock : Nat := 0

/-- Observational instrumentation of one `execute_task` call tree: number of
`action.execute` calls, of retry re-invocations, and of page reloads. -/
structure TaskStats where
  envCalls : Nat := 0
  retries : Nat := 0
  reloads : Nat := 0
deriving Repr

/-- Result of `execute_task`: updated executor state, the task as left in
memory (its params dict may have been mutated in place), the
`ActionResult`, and instrumentation. -/
structure TaskOut (W : Type) where
  state : ExecState W
  task : PlanTask
  result : ActionResult
  stats : TaskStats

/-- `self.last_inspect_result.get("suggested_selectors", [])`, keeping the
string entries (the repair path treats them as strings). -/
def suggestedOf (d : List (String × Value)) : List String :=
  match dictFind d "suggested_selectors" with
  | some (.list l) => l.filterMap (fun v => match v with
      | .str s => some s
      | _ => none)
  | _ => []

/-- Lines 111–116 of `executor.py`: store a successful inspect result for
later use (`InspectAction` data is always a dict). -/
def storeInspect {W : Type} (st1 : ExecState W) (action_name : String)
    (result : ActionResult) : ExecState W :=
  if result.success && action_name == "inspect" &&
      (match result.data with | some d => vTruthy d | none => false) then
    match result.data with
    | some (.dict d) => { st1 with last_inspect := some d }
    | _ => st1
  else st1

/-- Lines 118–127 of `executor.py`: auto-enhance extract with the first
suggested selector when the selector failed — `params["selector"] = ...`
mutates the task's params dict in place, and the action is re-executed with
the rewritten params. -/
def repairExtract {W : Type} (env : ExecEnv W) (maxRetries : Nat)
    (st2 : ExecState W) (task : PlanTask) (result : ActionResult)
    (calls : Nat) (retryCount : Nat) :
    ExecState W × PlanTask × ActionResult × Nat :=
  match st2.last_inspect with
  | some d =>
    if !(List.isEmpty d) then
      match suggestedOf d with
      | sel0 :: _ =>
        if retryCount < maxRetries then
          let selector := splitFirst sel0 " ("
          let params' := dictSet task.params "selector" (.str selector)
          let task' := { task with params := params' }
          let (result', w2) := env.step st2.world task.action params'
          ({ st2 with world := w2 }, task', result', calls + 1)
        else (st2, task, result, calls)
      | [] => (st2, task, result, calls)
    else (st2, task, result, calls)
  | none => (st2, task, result, calls)

/-- Lines 84–127 of `executor.py`: resolve the action and execute it (or
build the `Unknown action` failure), remember a successful inspect result
(`storeInspect`), and run the suggested-selector auto-repair for a failed
extract (`repairExtract`).  Returns the state, the task (with its params
dict possibly mutated in place by the repair), the result, and the number
of `action.execute` calls made. -/
def taskAttempt {W : Type} (env : ExecEnv W) (maxRetries : Nat)
    (st : ExecState W) (task : PlanTask) (retryCount : Nat) :
    ExecState W × PlanTask × ActionResult × Nat :=
  let action_name := task.action
  let (st1, result, calls) :=
    if action_name ∈ registryNames then
      let (result, w1) := env.step st.world action_name task.params
      ({ st with world := w1 }, result, 1)
    else
      (st, { success := false, action_name := action_name,
             error := some ("Unknown action: " ++ action_name) }, 0)
  -- store inspect results for later use
  let st2 := storeInspect st1 action_name result
  -- auto-enhance extract with suggested selectors if selector fails
  if !result.success && action_name == "extract" then
    repairExtract env maxRetries st2 task result calls retryCount
  else (st2, task, result, calls)

/-- `result.data if result.data else {}` — the result dict passed to
`log_action`. -/
def dataOrEmpty (d : Option Value) : Value :=
  match d with
  | some v => if vTruthy v then v else .dict []
  | none => .dict []

/-- Lines 145–168 of `executor.py`: log the action, collect extracted data
(for a successful `extract`/`loop` with truthy data), and return. -/
def taskFinish {W : Type} (st : ExecState W) (task : PlanTask)
    (result : ActionResult) (stats : TaskStats) : TaskOut W :=
  let st1 := { st with
    logger := logAction st.logger st.clock task.action task.params
                (dataOrEmpty result.data) result.success result.error,
    clock := st.clock + 1 }
  let st2 :=
    if result.success &&
        (match result.data with | some d => vTruthy d | none => false) &&
        (task.action ∈ ["extract", "loop"]) then
      match result.data with
      | some d => { st1 with collected_data := st1.collected_data ++
          [{ action := task.action, data := d,
             save_as := dictFind task.params "save_as" }] }
      | none => st1
    else st1
  { state := st2, task := task, result := result, stats := stats }

/-- `Executor.execute_task` with explicit fuel.  `execute_task` recurses
with `retry_count + 1` only while `retry_count < max_retries`, so from the
entry point `retry_count = 0` a fuel of `max_retries + 1` is never
exhausted; the fuel-0 fallback (finish without retrying) is unreachable. -/
def executeTaskGo {W : Type} (env : ExecEnv W) (maxRetries : Nat) :
    Nat → ExecState W → PlanTask → Nat → TaskOut W
  | 0, st, task, retryCount =>
    -- fuel exhausted: the retry guard can no longer fire (unreachable from
    -- the entry point, where fuel = maxRetries + 1 > retryCount always)
    let (st1, task1, result, calls) := taskAttempt env maxRetries st task retryCount
    taskFinish st1 task1 result { envCalls := calls }
  | fuel + 1, st, task, retryCount =>
    let (st1, task1, result, calls) := taskAttempt env maxRetries st task retryCount
    if !result.success && retryCount < maxRetries then
      -- wait before retry; try page reload on certain errors
      let timeoutErr := containsTimeout
        (match result.error with | some e => e | none => "None")
      let st2 := if timeoutErr then { st1 with world := env.reload st1.world }
                 else st1
      let out := executeTaskGo env maxRetries fuel st2 task1 (retryCount + 1)
      { out with stats := { out.stats with
          envCalls := out.stats.envCalls + calls,
          retries := out.stats.retries + 1,
          reloads := out.stats.reloads + (if timeoutErr then 1 else 0) } }
    else
      taskFinish st1 task1 result { envCalls := calls }

/-- `Executor.execute_task` (entry point, `retry_count = 0`). -/
def executeTask {W : Type} (env : ExecEnv W) (maxRetries : Nat)
    (st : ExecState W) (task : PlanTask) : TaskOut W :=
  executeTaskGo env maxRetries (maxRetries + 1) st task 0

/-- The `failed_task` record built at line 223 of `executor.py`. -/
structure FailedTask where
  task : PlanTask
  error : Option String
  index : Nat
deriving Repr

/-- The dict returned by `execute_plan` (keys present depend on the exit
path, absent keys are `none`). -/
structure PlanResult where
  success : Bool
  error : Option String := none
  total_tasks : Option Nat := none
  completed_tasks : Option Nat := none
  attempts : Option Nat := none
  failed_task : Option FailedTask := none
  collected_data : Option (List CollectedEntry) := none
  log_path : Option String := none
deriving Repr

/-- Lines 215–229 of `executor.py`: the `for i, task in enumerate(tasks)`
loop of one plan attempt.  Returns the state, the task list as left in
memory (tasks are mutated in place and the loop may break early), the
`success_count`, and the last `failed_task` assigned. -/
def runTasks {W : Type} (env : ExecEnv W) (maxRetries : Nat)
    (stopOnError : Bool) :
    ExecState W → List PlanTask → Nat → Nat → Option FailedTask →
    ExecState W × List PlanTask × Nat × Option FailedTask
  | st, [], _, successCount, failed => (st, [], successCount, failed)
  | st, task :: rest, i, successCount, failed =>
    let out := executeTask env maxRetries st task
    if out.result.success then
      let (st', rest', sc', f') :=
        runTasks env maxRetries stopOnError out.state rest (i + 1)
          (successCount + 1) failed
      (st', out.task :: rest', sc', f')
    else
      let f := some { task := out.task, error := out.result.error, index := i }
      if stopOnError then (out.state, out.task :: rest, successCount, f)
      else
        let (st', rest', sc', f') :=
          runTasks env maxRetries stopOnError out.state rest (i + 1)
            successCount f
        (st', out.task :: rest', sc', f')

/-- How one iteration of the `while plan_attempts < max_plan_attempts` loop
exits. -/
inductive PlanExit where
  | success (successCount : Nat) (attempts : Nat)
  | failed (successCount : Nat) (attempts : Nat) (failed : Option FailedTask)
  | crash
deriving Repr

/-- Lines 202–255 of `executor.py`: the whole-plan retry loop.  `fuel` is
`max_plan_attempts - plan_attempts`, so the `fuel = 0` case is the `while`
condition failing — reachable only when `max_plan_attempts = 0`, where the
Python code would go on to read the loop-local `success_count` and crash
with `NameError` (`PlanExit.crash`). -/
def planLoop {W : Type} (env : ExecEnv W) (maxRetries : Nat)
    (stopOnError retryFullPlan : Bool) (tasks : List PlanTask) :
    Nat → Nat → ExecState W → ExecState W × List PlanTask × PlanExit
  | 0, _, st => (st, tasks, .crash)
  | fuel + 1, planAttempts, st =>
    let attempts := planAttempts + 1
    let (st1, tasks1, successCount, failed) :=
      runTasks env maxRetries stopOnError st tasks 0 0 none
    if successCount = tasks1.length then
      (st1, tasks1, .success successCount attempts)
    else if !retryFullPlan then
      (st1, tasks1, .failed successCount attempts failed)
    else if attempts ≥ maxRetries then
      (st1, tasks1, .failed successCount attempts failed)
    else
      planLoop env maxRetries stopOnError retryFullPlan tasks1 fuel attempts st1

/-- Lines 196–197 of `executor.py`: start the logging session and reset
`collected_data` — the one and only reset in `execute_plan`. -/
def planStart {W : Type} (env : ExecEnv W) (st : ExecState W)
    (goal : String) : ExecState W :=
  let (_, logger1) := startSession st.logger env.sidHex st.clock goal
  { st with logger := logger1, clock := st.clock + 1, collected_data := [] }

/-- `Executor.execute_plan`.  Returns the final executor state, the task
list as left in memory, and the summary dict — `none` exactly in the
`max_plan_attempts = 0` case where the Python code raises `NameError`
(reading the undefined `success_count` after a zero-iteration loop). -/
def executePlan {W : Type} (env : ExecEnv W) (maxRetries : Nat)
    (st : ExecState W) (tasks : List PlanTask) (goal : String)
    (stopOnError retryFullPlan : Bool) :
    ExecState W × List PlanTask × Option PlanResult :=
  if tasks.isEmpty then
    (st, tasks, some { success := false, error := some "No tasks to execute" })
  else
    match planLoop env maxRetries stopOnError retryFullPlan tasks
        maxRetries 0 (planStart env st goal) with
    | (st2, tasks2, .success successCount attempts) =>
      let (logPath, logger2) := endSession st2.logger st2.clock true none
      ({ st2 with logger := logger2, clock := st2.clock + 1 }, tasks2,
       some { success := true, total_tasks := some tasks2.length,
              completed_tasks := some successCount, attempts := some attempts,
              collected_data := some st2.collected_data,
              log_path := some logPath })
    | (st2, tasks2, .failed successCount attempts failed) =>
      let err := match failed with
                 | some f => f.error
                 | none => some "Unknown error"
      let (logPath, logger2) := endSession st2.logger st2.clock false err
      ({ st2 with logger := logger2, clock := st2.clock + 1 }, tasks2,
       some { success := false, total_tasks := some tasks2.length,
              completed_tasks := some successCount, attempts := some attempts,
              failed_task := failed,
              collected_data := some st2.collected_data,
              log_path := some logPath })
    | (st2, tasks2, .crash) => (st2, tasks2, none)

/-! ## `src/actions/loop.py` — `LoopAction`

Playwright page calls are abstracted by a `PageEnv`: each call can return a
result or raise.  Elements are an abstract type `E`.  Registry actions
invoked from a loop step go through `registryExec` (they may in principle
raise, which the loop's `try/except` catches). -/

/-- Python `v == "s"` for an embedded value against a string literal. -/
def vEqStr (v : Value) (s : String) : Bool :=
  match v with
  | .str s' => s' == s
  | _ => false

/-- The Playwright page operations used by the embedded actions, over the
abstract world `W` and element type `E`. -/
structure PageEnv (W E : Type) where
  waitForSelector : Value → Value → Value → ExceptW W PUnit
  waitForLoadState : Value → Value → ExceptW W PUnit
  queryAll : Value → ExceptW W (List E)
  query : Value → ExceptW W (Option E)
  queryIn : E → Value → ExceptW W (Option E)
  textContent : E → ExceptW W (Option String)
  getAttr : E → Value → ExceptW W (Option String)
  clickSel : Value → ExceptW W PUnit
  clickElem : E → ExceptW W PUnit
  evalScroll : ExceptW W PUnit
  goto : Value → ExceptW W PUnit
  fill : Value → Value → ExceptW W PUnit
  typeTextOp : Value → Value → ExceptW W PUnit
  press : Value → Value → ExceptW W PUnit
  registry : List String
  registryExec : String → List (String × Value) → ExceptW W ActionResult

/-- The element loop of `_extract_inline` (`multiple=True` branch): collect
the stripped text content (or attribute) of each element when truthy. -/
def extractInlineLoop {W E : Type} (env : PageEnv W E) (attrV : Value) :
    List E → List Value → ExceptW W (List Value)
  | [], acc => pureW acc
  | el :: rest, acc =>
    bindW (if vTruthy attrV then env.getAttr el attrV
           else env.textContent el) (fun value =>
      match value with
      | some s =>
        if s != "" then extractInlineLoop env attrV rest (acc ++ [.str s.trim])
        else extractInlineLoop env attrV rest acc
      | none => extractInlineLoop env attrV rest acc)

/-- `LoopAction._extract_inline`. -/
def extractInline {W E : Type} (env : PageEnv W E)
    (step : List (String × Value)) : ExceptW W ActionResult :=
  let selector := dictGetD step "selector" .null
  let attrV := dictGetD step "attribute" .null
  let multiple := dictGetD step "multiple" (.bool true)
  catchW
    (if vTruthy multiple then
      bindW (env.queryAll selector) (fun elements =>
        bindW (extractInlineLoop env attrV elements []) (fun data =>
          pureW { success := true, action_name := "extract",
                  data := some (.list data) }))
    else
      bindW (env.query selector) (fun element =>
        match element with
        | some el =>
          bindW (if vTruthy attrV then env.getAttr el attrV
                 else env.textContent el) (fun value =>
            let data : Option Value :=
              match value with
              | some s => if s != "" then some (.str s.trim) else none
              | none => none
            pureW { success := true, action_name := "extract", data := data })
        | none =>
          pureW { success := true, action_name := "extract", data := none }))
    (fun e => pureW { success := false, action_name := "extract",
                      error := some e })

/-- `LoopAction._click_inline`. -/
def clickInline {W E : Type} (env : PageEnv W E)
    (step : List (String × Value)) : ExceptW W ActionResult :=
  let selector := dictGetD step "selector" .null
  catchW
    (bindW (env.clickSel selector) (fun _ =>
      pureW { success := true, action_name := "click" }))
    (fun e => pureW { success := false, action_name := "click",
                      error := some e })

/-- `LoopAction._wait_inline`.  `asyncio.sleep(duration / 1000)` raises
`TypeError` on a non-numeric duration — this helper has no `try`, so such a
raise propagates into the loop body. -/
def waitInline {W E : Type} (_env : PageEnv W E)
    (step : List (String × Value)) : ExceptW W ActionResult :=
  match dictGetD step "duration" (.nat 1000) with
  | .nat _ => pureW { success := true, action_name := "wait" }
  | .bool _ => pureW { success := true, action_name := "wait" }
  | _ => throwW "TypeError: unsupported operand type for /"

/-- `LoopAction._execute_step`. -/
def executeStep {W E : Type} (env : PageEnv W E)
    (step : List (String × Value)) : ExceptW W ActionResult :=
  let action_name := dictGetD step "action" .null
  if !vTruthy action_name then
    pureW { success := false, action_name := "unknown",
            error := some "Action name not specified in step" }
  else
    match action_name with
    | .str s =>
      if s ∈ env.registry then
        env.registryExec s (step.filter (fun kv => kv.1 != "action"))
      else if s == "extract" then extractInline env step
      else if s == "click" then clickInline env step
      else if s == "wait" then waitInline env step
      else
        pureW { success := false, action_name := s,
                error := some ("Unknown action: " ++ s) }
    | v =>
      pureW { success := false, action_name := vStr v,
              error := some ("Unknown action: " ++ vStr v) }

/-- `LoopAction._paginate`.  All Playwright calls sit inside `try/except`
blocks that translate a raise into `False` ("no next page"); the function
returns a plain `Bool` and never raises. -/
def paginate {W E : Type} (env : PageEnv W E)
    (pagination : List (String × Value)) (w : W) : Bool × W :=
  let ptype := dictGetD pagination "type" (.str "click")
  let selector := dictGetD pagination "selector" .null
  let body : ExceptW W Bool :=
    if vEqStr ptype "click" then
      catchW
        (bindW (env.query selector) (fun nextButton =>
          match nextButton with
          | none => pureW false
          | some btn =>
            bindW (env.getAttr btn (.str "disabled")) (fun isDisabled =>
              match isDisabled with
              | some s =>
                if s != "" then pureW false
                else bindW (env.clickElem btn) (fun _ => pureW true)
              | none => bindW (env.clickElem btn) (fun _ => pureW true))))
        (fun _ => pureW false)
    else if vEqStr ptype "scroll" then
      catchW (bindW env.evalScroll (fun _ => pureW true))
        (fun _ => pureW false)
    else pureW false
  match body w with
  | (.ok b, w') => (b, w')
  | (.error _, w') => (false, w')

/-- The pattern loop of one iteration (lines 96–105 of `loop.py`): run the
steps in order, break on the first failed step, collect each truthy
`result.data`.  A raise inside a step propagates (to `execute`'s
`try/except`). -/
def stepsRun {W E : Type} (env : PageEnv W E) :
    List Value → List (List (String × Value)) → ExceptW W (List Value)
  | acc, [] => pureW acc
  | acc, step :: rest =>
    bindW (executeStep env step) (fun result =>
      if !result.success then pureW acc
      else
        let acc' := match result.data with
          | some d => if vTruthy d then acc ++ [d] else acc
          | none => acc
        stepsRun env acc' rest)

/-- How the `while` loop of `LoopAction.execute` ended: collected data,
iteration counter, and the exception caught by the outer `try/except`
(if any). -/
structure LoopOut where
  collected : List Value
  iterations : Nat
  exc : Option String
deriving Repr

/-- The `max_iterations` stop check (line 117 of `loop.py`):
`some exc?` when the loop must break (`exc?` holds the `TypeError` message
when `iteration >= stop_value` raises on a non-numeric value),
`none` to go on. -/
def stopCheck (stopType stopValue : Value) (iter : Nat) :
    Option (Option String) :=
  if vEqStr stopType "max_iterations" then
    match stopValue with
    | .nat n => if iter ≥ n then some none else none
    | .bool b => if iter ≥ (if b then 1 else 0) then some none else none
    | _ => some (some "TypeError: unorderable types")
  else none

/-- One iteration of the `while` loop, lines 89–139 of `loop.py` (the
counter was already incremented to `iter`): either the loop finishes (`inl`:
break, or an exception for the outer `try/except`) or it continues into the
next iteration with the grown data and new world (`inr`). -/
def loopIter {W E : Type} (env : PageEnv W E)
    (pattern : List (List (String × Value)))
    (pagination : Option (List (String × Value)))
    (stopType : Value) (stopValue : Value) (onEmpty : String)
    (iter : Nat) (collected : List Value) (w : W) :
    (LoopOut × W) ⊕ (List Value × W) :=
  match stepsRun env [] pattern w with
  | (.error e, w1) =>
    .inl ({ collected := collected, iterations := iter, exc := some e }, w1)
  | (.ok iterationData, w1) =>
    -- handle empty results
    if iterationData.isEmpty && onEmpty == "stop" then
      .inl ({ collected := collected, iterations := iter, exc := none }, w1)
    else
      -- add collected data
      let collected1 := collected ++ iterationData
      -- check stop conditions
      match stopCheck stopType stopValue iter with
      | some exc =>
        .inl ({ collected := collected1, iterations := iter, exc := exc }, w1)
      | none =>
        if vEqStr stopType "empty_results" && iterationData.isEmpty then
          .inl ({ collected := collected1, iterations := iter, exc := none },
                w1)
        else
          -- handle pagination
          match pagination with
          | some pag =>
            if !pag.isEmpty then
              -- `if pagination:` — a non-empty pagination dict
              let (hasNext, w2) := paginate env pag w1
              if !hasNext then
                .inl ({ collected := collected1, iterations := iter,
                        exc := none }, w2)
              else .inr (collected1, w2)
            else
              -- falsy (empty) pagination dict: no pagination, single iteration
              .inl ({ collected := collected1, iterations := iter,
                      exc := none }, w1)
          | none =>
            -- no pagination, single iteration
            .inl ({ collected := collected1, iterations := iter,
                    exc := none }, w1)

/-- Lines 88–140 of `loop.py`: the iteration loop.  `fuel` is
`max_iterations - iteration`; the `fuel = 0` case is the `while` condition
failing. -/
def loopGo {W E : Type} (env : PageEnv W E)
    (pattern : List (List (String × Value)))
    (pagination : Option (List (String × Value)))
    (stopType : Value) (stopValue : Value) (onEmpty : String) :
    Nat → Nat → List Value → W → LoopOut × W
  | 0, iteration, collected, w =>
    ({ collected := collected, iterations := iteration, exc := none }, w)
  | fuel + 1, iteration, collected, w =>
    match loopIter env pattern pagination stopType stopValue onEmpty
        (iteration + 1) collected w with
    | .inl done => done
    | .inr (collected1, w2) =>
      loopGo env pattern pagination stopType stopValue onEmpty
        fuel (iteration + 1) collected1 w2

/-- `LoopAction.execute`.  `stop_condition` and `pagination` are optional
dict parameters; `max_iterations` is the numeric safety limit.  Returns the
`ActionResult` and the final world. -/
def loopExecute {W E : Type} (env : PageEnv W E)
    (pattern : List (List (String × Value)))
    (pagination : Option (List (String × Value)))
    (stopCondition : Option (List (String × Value))) (onEmpty : String)
    (maxIterations : Nat) (w : W) : ActionResult × W :=
  -- validate parameters
  if pattern.isEmpty then
    ({ success := false, action_name := "loop",
       error := some "Pattern is required" }, w)
  else
    -- parse stop condition
    let (stopType, stopValue) :=
      match stopCondition with
      | some sc =>
        if !sc.isEmpty then
          (dictGetD sc "type" (.str "max_iterations"),
           dictGetD sc "value" (.nat maxIterations))
        else (.str "max_iterations", .nat maxIterations)
      | none => (.str "max_iterations", .nat maxIterations)
    let (out, w') :=
      loopGo env pattern pagination stopType stopValue onEmpty
        maxIterations 0 [] w
    match out.exc with
    | none =>
      ({ success := true, action_name := "loop",
         data := some (.list out.collected),
         metadata := [("iterations", .nat out.iterations),
                      ("items_collected", .nat out.collected.length),
                      ("stop_reason", stopType)] }, w')
    | some e =>
      ({ success := false, action_name := "loop", error := some e,
         data := some (.list out.collected),
         metadata := [("iterations", .nat out.iterations)] }, w')

/-! ## `src/actions/extract.py` and `src/actions/wait.py`

Both `execute` bodies are embedded as `ExceptW` computations (the `try`
block can raise through any Playwright call) wrapped by the `except` clause
that converts a raise into a failed `ActionResult`.  Keyword parameters
arrive from the planner's params dict, so they are embedded as `Value`s and
the `isinstance` checks of the source are modelled on them. -/

/-- `isinstance(v, str)`. -/
def isStr : Value → Bool
  | .str _ => true
  | _ => false

/-- The per-element body of the `multiple=True` loop of
`ExtractAction.execute` (lines 68–94): build the `item_data` dict for one
element. -/
def extractItem {W E : Type} (env : PageEnv W E) (attrV : Value) (el : E) :
    ExceptW W (List (String × Value)) :=
  bindW (env.textContent el) (fun text =>
    let item0 : List (String × Value) :=
      match text with
      | some s => if s != "" then [("text", .str s.trim)] else []
      | none => []
    bindW (env.queryIn el (.str "a")) (fun link =>
      bindW
        (match link with
         | some l =>
           bindW (env.getAttr l (.str "href")) (fun href =>
             match href with
             | some h => if h != "" then pureW (dictSet item0 "link" (.str h))
                         else pureW item0
             | none => pureW item0)
         | none =>
           if vEqStr attrV "href" then
             bindW (env.getAttr el (.str "href")) (fun href =>
               match href with
               | some h => if h != "" then pureW (dictSet item0 "link" (.str h))
                           else pureW item0
               | none => pureW item0)
           else pureW item0)
        (fun item1 =>
          if vTruthy attrV && isStr attrV then
            bindW (env.getAttr el attrV) (fun attrValue =>
              match attrValue, attrV with
              | some v, .str a =>
                if v != "" then pureW (dictSet item1 a (.str v))
                else pureW item1
              | _, _ => pureW item1)
          else pureW item1)))

/-- The element loop of the `multiple=True` branch. -/
def extractMultiLoop {W E : Type} (env : PageEnv W E) (attrV : Value) :
    List E → List Value → ExceptW W (List Value)
  | [], acc => pureW acc
  | el :: rest, acc =>
    bindW (extractItem env attrV el) (fun item =>
      if !item.isEmpty then
        extractMultiLoop env attrV rest (acc ++ [.dict item])
      else extractMultiLoop env attrV rest acc)

/-- The field loop of `_extract_complex` for one container element
(lines 147–160). -/
def extractComplexFields {W E : Type} (env : PageEnv W E) (el : E) :
    List (String × Value) → List (String × Value) →
    ExceptW W (List (String × Value))
  | item, [] => pureW item
  | item, (fieldName, fieldConfig) :: rest =>
    match fieldConfig with
    | .dict fc =>
      let subSelector := dictGetD fc "selector" (.str "")
      let attr := dictGetD fc "attribute" .null
      bindW (env.queryIn el subSelector) (fun subElement =>
        match subElement with
        | some sub =>
          bindW (if vTruthy attr then env.getAttr sub attr
                 else env.textContent sub) (fun value =>
            match value with
            | some v =>
              if v != "" then
                extractComplexFields env el
                  (dictSet item fieldName (.str v.trim)) rest
              else extractComplexFields env el item rest
            | none => extractComplexFields env el item rest)
        | none => extractComplexFields env el item rest)
    | _ => extractComplexFields env el item rest

/-- The container-element loop of `_extract_complex`. -/
def extractComplexLoop {W E : Type} (env : PageEnv W E)
    (fields : List (String × Value)) : List E → List Value →
    ExceptW W (List Value)
  | [], acc => pureW acc
  | el :: rest, acc =>
    bindW (extractComplexFields env el [] fields) (fun item =>
      if !item.isEmpty then
        extractComplexLoop env fields rest (acc ++ [.dict item])
      else extractComplexLoop env fields rest acc)

/-- The `try` block of `ExtractAction._extract_complex`. -/
def extractComplexBody {W E : Type} (env : PageEnv W E)
    (containerSelector : Value) (fields : List (String × Value))
    (saveAs : Value) : ExceptW W ActionResult :=
  bindW (env.queryAll containerSelector) (fun elements =>
    bindW (extractComplexLoop env fields elements []) (fun data =>
      pureW { success := true, action_name := "extract",
              data := some (.list data),
              metadata := [("save_as", saveAs),
                           ("count", .nat data.length)] }))

/-- `ExtractAction._extract_complex` (its own `try/except` included). -/
def extractComplex {W E : Type} (env : PageEnv W E)
    (containerSelector : Value) (fields : List (String × Value))
    (saveAs : Value) (w : W) : ActionResult × W :=
  match extractComplexBody env containerSelector fields saveAs w with
  | (.ok r, w') => (r, w')
  | (.error e, w') =>
    ({ success := false, action_name := "extract", error := some e }, w')

/-- Lines 63–123 of `extract.py`: the simple (non-`extract_fields`)
extraction, multiple or single. -/
def extractMain {W E : Type} (env : PageEnv W E)
    (selector attrV multiple saveAs : Value) : ExceptW W ActionResult :=
  if vTruthy multiple then
    bindW (env.queryAll selector) (fun elements =>
      bindW (extractMultiLoop env attrV elements []) (fun data =>
        pureW { success := true, action_name := "extract",
                data := some (.list data),
                metadata := [("selector", selector), ("attribute", attrV),
                             ("multiple", multiple), ("save_as", saveAs),
                             ("count", .nat data.length)] }))
  else
    bindW (env.query selector) (fun element =>
      match element with
      | none =>
        -- `element` is `None`: `element.get_attribute/text_content` raises
        throwW "AttributeError: NoneType object has no attribute"
      | some el =>
        bindW (if vTruthy attrV && isStr attrV then env.getAttr el attrV
               else env.textContent el) (fun dataStr =>
          let data : Option Value :=
            match dataStr with
            | some s => if s != "" then some (.str s.trim) else some (.str s)
            | none => none
          pureW { success := true, action_name := "extract",
                  data := data,
                  metadata := [("selector", selector), ("attribute", attrV),
                               ("multiple", multiple), ("save_as", saveAs),
                               ("count", .nat 1)] }))

/-- The `try` block of `ExtractAction.execute` (lines 55–123), raising
whenever a Playwright call raises.  `attrV` is the `attribute` parameter
after the line-52 normalisation.  A truthy non-dict `extract_fields` fails
the `isinstance` check and falls through to the simple extraction. -/
def extractTry {W E : Type} (env : PageEnv W E) (selector attrV multiple
    saveAs timeout extractFields : Value) : ExceptW W ActionResult :=
  bindW (env.waitForSelector selector timeout (.str "visible")) (fun _ =>
    if vTruthy extractFields then
      match extractFields with
      | .dict fields => fun w =>
        let (r, w') := extractComplex env selector fields saveAs w
        (.ok r, w')
      | _ => extractMain env selector attrV multiple saveAs
    else extractMain env selector attrV multiple saveAs)

/-- `ExtractAction.execute`: the selector validation, the `attribute`
normalisation, and the `try/except` wrapping of `extractTry`. -/
def extractExecute {W E : Type} (env : PageEnv W E) (selector attribV
    multiple saveAs timeout extractFields : Value) (w : W) :
    ActionResult × W :=
  -- validate selector
  if !vTruthy selector then
    ({ success := false, action_name := "extract",
       error := some "'selector' parameter is required" }, w)
  else
    -- validate attribute is a string if provided
    let attrV := if vTruthy attribV && !isStr attribV then .null else attribV
    match extractTry env selector attrV multiple saveAs timeout extractFields w with
    | (.ok r, w') => (r, w')
    | (.error e, w') =>
      ({ success := false, action_name := "extract", error := some e,
         metadata := [("selector", selector)] }, w')

/-- The `try` block of `WaitAction.execute` (lines 41–91). -/
def waitTry {W E : Type} (env : PageEnv W E)
    (selector timeout state duration waitFor : Value) :
    ExceptW W ActionResult :=
  -- default: wait for page load if no specific condition
  if !vTruthy duration && !vTruthy waitFor && !vTruthy selector then
    bindW (env.waitForLoadState (.str "domcontentloaded") timeout) (fun _ =>
      pureW { success := true, action_name := "wait",
              metadata := [("default_wait", .bool true)] })
  -- wait for fixed duration
  else if vTruthy duration then
    match duration with
    | .nat _ => pureW { success := true, action_name := "wait",
                        metadata := [("duration", duration)] }
    | .bool _ => pureW { success := true, action_name := "wait",
                         metadata := [("duration", duration)] }
    | _ => throwW "TypeError: unsupported operand type for /"
  -- wait for page state
  else if vTruthy waitFor then
    bindW (env.waitForLoadState waitFor timeout) (fun _ =>
      pureW { success := true, action_name := "wait",
              metadata := [("wait_for", waitFor)] })
  -- wait for element
  else if vTruthy selector then
    bindW (env.waitForSelector selector timeout state) (fun _ =>
      pureW { success := true, action_name := "wait",
              metadata := [("selector", selector), ("state", state)] })
  else
    pureW { success := false, action_name := "wait",
            error := some "No wait condition specified" }

/-- `WaitAction.execute`: `waitTry` with its `except` clause. -/
def waitExecute {W E : Type} (env : PageEnv W E)
    (selector timeout state duration waitFor : Value) (w : W) :
    ActionResult × W :=
  match waitTry env selector timeout state duration waitFor w with
  | (.ok r, w') => (r, w')
  | (.error e, w') =>
    ({ success := false, action_name := "wait", error := some e,
       metadata := [("selector", selector), ("duration", duration)] }, w')

/-! ## `src/session_logging/replayer.py` — `Replayer`

`_execute_action` dispatches on the logged action name; each inline branch
has its own `try/except` and returns a result dict, while the registry
branch calls `action.execute(**params)` (which may raise out of
`_execute_action`, into `replay`'s per-action `try/except`). -/

/-- A success dict `{"success": True}` and a failure dict. -/
def rOk : Value := .dict [("success", .bool true)]

/-- `{"success": False, "error": e}`. -/
def rErr (e : String) : Value :=
  .dict [("success", .bool false), ("error", .str e)]

/-- `Replayer._execute_action`. -/
def replayExecAction {W E : Type} (env : PageEnv W E)
    (actionName : Value) (params : Value) : ExceptW W Value :=
  if vEqStr actionName "navigate" then
    catchW
      (bindW (env.goto (vGetD params "url" .null)) (fun _ => pureW rOk))
      (fun e => pureW (rErr e))
  else if vEqStr actionName "click" then
    catchW
      (let selector := vGetD params "selector" .null
       let text := vGetD params "text" .null
       if vTruthy selector then
         bindW (env.clickSel selector) (fun _ => pureW rOk)
       else if vTruthy text then
         bindW (env.clickSel (.str ("text=" ++ vStr text))) (fun _ => pureW rOk)
       else pureW rOk)
      (fun e => pureW (rErr e))
  else if vEqStr actionName "type_text" then
    catchW
      (let selector := vGetD params "selector" .null
       let text := vGetD params "text" .null
       bindW (env.fill selector (.str "")) (fun _ =>
         bindW (env.typeTextOp selector text) (fun _ =>
           if vTruthy (vGetD params "press_enter" .null) then
             bindW (env.press selector (.str "Enter")) (fun _ => pureW rOk)
           else pureW rOk)))
      (fun e => pureW (rErr e))
  else if vEqStr actionName "wait" then
    catchW
      (match vGetD params "duration" (.nat 1000) with
       | .nat _ => pureW rOk
       | .bool _ => pureW rOk
       | _ => throwW "TypeError: unsupported operand type for /")
      (fun e => pureW (rErr e))
  else if vEqStr actionName "extract" then
    -- skip extraction during replay
    pureW (.dict [("success", .bool true), ("skipped", .bool true)])
  else
    match actionName with
    | .str s =>
      if s ∈ env.registry then
        match params with
        | .dict l =>
          bindW (env.registryExec s l) (fun r => pureW r.toDict)
        | _ => throwW "TypeError: argument after ** must be a mapping"
      else pureW (rErr ("Unknown action: " ++ s))
    | v => pureW (rErr ("Unknown action: " ++ vStr v))

/-- Lines 72–98 of `replayer.py`: the replay loop.  Returns the per-action
result dicts, the success count, and the final world. -/
def replayLoop {W E : Type} (env : PageEnv W E) (stopOnError : Bool) :
    W → List Value → List Value × Nat × W
  | w, [] => ([], 0, w)
  | w, actionLog :: rest =>
    let actionName := vGetD actionLog "action" .null
    let params := vGetD actionLog "params" (.dict [])
    match replayExecAction env actionName params w with
    | (.ok result, w') =>
      if vTruthy (vGetD result "success" .null) then
        let (rs, sc, w'') := replayLoop env stopOnError w' rest
        (result :: rs, sc + 1, w'')
      else if stopOnError then ([result], 0, w')
      else
        let (rs, sc, w'') := replayLoop env stopOnError w' rest
        (result :: rs, sc, w'')
    | (.error e, w') =>
      if stopOnError then ([rErr e], 0, w')
      else
        let (rs, sc, w'') := replayLoop env stopOnError w' rest
        (rErr e :: rs, sc, w'')

/-- `Replayer.replay`.  The result is `none` only for a recorded `actions`
value that is a truthy non-list (Python would then iterate something that
is not a list of action dicts — a shape `end_session` never writes). -/
def replay {W E : Type} (env : PageEnv W E) (ls : LoggerState)
    (sessionId : String) (stopOnError : Bool) (w : W) :
    Option (Value × W) :=
  match getLog ls sessionId with
  | none =>
    some (.dict [("success", .bool false),
                 ("error", .str ("Session not found: " ++ sessionId))], w)
  | some logData =>
    if !vTruthy logData then
      some (.dict [("success", .bool false),
                   ("error", .str ("Session not found: " ++ sessionId))], w)
    else
      let actions := vGetD logData "actions" (.list [])
      if !vTruthy actions then
        some (.dict [("success", .bool false),
                     ("error", .str "No actions to replay")], w)
      else
        match actions with
        | .list acts =>
          let (results, successCount, w') := replayLoop env stopOnError w acts
          some (.dict
            [("success", .bool (successCount == acts.length)),
             ("session_id", .str sessionId),
             ("total_actions", .nat acts.length),
             ("successful_actions", .nat successCount),
             ("results", .list results)], w')
        | _ => none

/-! ## Infrastructure lemmas -/

/-- Inversion of `bindW` producing an `ok` outcome. -/
theorem bindW_eq_ok {W α β : Type} {m : ExceptW W α} {f : α → ExceptW W β}
    {w : W} {b : β} {w₂ : W} :
    bindW m f w = (.ok b, w₂) ↔
      ∃ a w₁, m w = (.ok a, w₁) ∧ f a w₁ = (.ok b, w₂) := by
  unfold bindW
  rcases h : m w with ⟨r, w'⟩
  cases r with
  | error e => simp [h]
  | ok a =>
    simp only [h]
    constructor
    · intro hf
      exact ⟨a, w', rfl, hf⟩
    · rintro ⟨a', w₁, hma, hf⟩
      simp only [Prod.mk.injEq, Except.ok.injEq] at hma
      obtain ⟨rfl, rfl⟩ := hma
      exact hf

/-- A key just written to a Python dict is found there. -/
theorem dictFind_dictSet (l : List (String × Value)) (k : String)
    (v : Value) : dictFind (dictSet l k v) k = some v := by
  induction l with
  | nil => simp [dictSet, dictFind]
  | cons kv t ih =>
    rcases kv with ⟨k', v'⟩
    by_cases h : k' = k <;> simp [dictSet, dictFind, h, ih]

/-- Writing one key leaves the lookup of every other key unchanged. -/
theorem dictFind_dictSet_ne (l : List (String × Value)) {k k' : String}
    (v : Value) (h : k ≠ k') :
    dictFind (dictSet l k' v) k = dictFind l k := by
  induction l with
  | nil => simp [dictSet, dictFind, Ne.symm h]
  | cons kv t ih =>
    rcases kv with ⟨k₀, v₀⟩
    by_cases h0 : k₀ = k'
    · subst h0
      simp [dictSet, dictFind, Ne.symm h]
    · by_cases h1 : k₀ = k <;>
        simp [dictSet, dictFind, h0, h1, h, Ne.symm h, ih]

/-! ## The claims -/

/-- **C10.**  For the empty task list, `execute_plan` returns
`{success: false, error: "No tasks to execute"}` immediately: no logging
session is started, no task is executed, and `collected_data` is left
unchanged (the returned state is exactly the input state). -/
theorem executePlan_empty_tasks {W : Type} (env : ExecEnv W)
    (maxRetries : Nat) (st : ExecState W) (goal : String)
    (stopOnError retryFullPlan : Bool) :
    executePlan env maxRetries st [] goal stopOnError retryFullPlan =
      (st, [], some { success := false,
                      error := some "No tasks to execute" }) := rfl

/-- **C7.**  A session sealed by `end_session` and read back with
`get_log(session_id)` yields a record whose `action_count` equals the
number of logged entries and whose `actions` list is the logged list of
entries, field for field (`LogEntry.toValue` is injective, so equality of
the serialised lists is equality of the entry lists). -/
theorem endSession_getLog_roundtrip (ls : LoggerState) (sid : String)
    (now : Nat) (success : Bool) (error : Option String)
    (h : ls.session_id = some sid) :
    (∃ v, getLog (endSession ls now success error).2 sid = some v ∧
      vGet v "action_count" = some (.nat ls.actions.length) ∧
      vGet v "actions" = some (.list (ls.actions.map LogEntry.toValue))) ∧
    ∀ e₁ e₂ : LogEntry, LogEntry.toValue e₁ = LogEntry.toValue e₂ →
      e₁ = e₂ := by
  constructor
  · refine ⟨sessionValue ls sid now success error, ?_, rfl, rfl⟩
    unfold endSession getLog
    rw [h]
    simpa using dictFind_dictSet ls.fs (joinPath ls.logs_dir (sid ++ ".json"))
      (sessionValue ls sid now success error)
  · intro e₁ e₂ he
    cases e₁ with
    | mk a p r s err ts =>
      cases e₂ with
      | mk a' p' r' s' err' ts' =>
        cases err <;> cases err' <;> simp_all [LogEntry.toValue]

/-- Witness for C7 at a concrete sealed session. -/
theorem endSession_getLog_roundtrip_witness :
    (∃ v, getLog (endSession
        { logs_dir := "./logs", session_id := some "session_ab12cd34",
          goal := some "collect jobs",
          actions := [{ action := "navigate", params := [("url", .str "u")],
                        result := .dict [], success := true, error := none,
                        timestamp := isoformat 1 }],
          start_time := some 0 } 2 true none).2 "session_ab12cd34" = some v ∧
      vGet v "action_count" = some (.nat 1) ∧
      vGet v "actions" = some (.list
        ([{ action := "navigate", params := [("url", .str "u")],
            result := .dict [], success := true, error := none,
            timestamp := isoformat 1 : LogEntry }].map LogEntry.toValue))) ∧
    ∀ e₁ e₂ : LogEntry, LogEntry.toValue e₁ = LogEntry.toValue e₂ →
      e₁ = e₂ :=
  endSession_getLog_roundtrip _ "session_ab12cd34" 2 true none rfl

/-- A failed result is never stored as an inspect result. -/
theorem storeInspect_fail {W : Type} (st : ExecState W) (a : String)
    (result : ActionResult) (h : result.success = false) :
    storeInspect st a result = st := by
  simp [storeInspect, h]

/-- One `taskAttempt` on a task whose action is outside the registry leaves
the state and the task unchanged and produces the `Unknown action` failure
without calling the action environment. -/
theorem taskAttempt_unknown {W : Type} (env : ExecEnv W) (mR : Nat)
    (st : ExecState W) (task : PlanTask) (rc : Nat)
    (h : task.action ∉ registryNames) :
    taskAttempt env mR st task rc =
      (st, task, { success := false, action_name := task.action,
                   error := some ("Unknown action: " ++ task.action) }, 0) := by
  have hex : task.action ≠ "extract" := by
    intro he
    exact h (he ▸ (by decide : "extract" ∈ registryNames))
  have hex' : (task.action == "extract") = false := by simpa using hex
  unfold taskAttempt
  simp [h, hex', storeInspect_fail]

/-- The retry loop on an unregistered action: the `Unknown action` failure
is re-executed `maxRetries - retryCount` more times (each a sleep and a
re-evaluation of the same failure), the environment is never called, and
the page is reloaded on each retry only when the action name makes the
error message contain `"timeout"`. -/
theorem executeTaskGo_unknown {W : Type} (env : ExecEnv W) (mR : Nat)
    (task : PlanTask) (h : task.action ∉ registryNames) :
    ∀ fuel rc st, mR - rc ≤ fuel →
      (executeTaskGo env mR fuel st task rc).result =
        { success := false, action_name := task.action,
          error := some ("Unknown action: " ++ task.action) } ∧
      (executeTaskGo env mR fuel st task rc).task = task ∧
      (executeTaskGo env mR fuel st task rc).stats =
        { envCalls := 0, retries := mR - rc,
          reloads := if containsTimeout ("Unknown action: " ++ task.action)
                     then mR - rc else 0 } := by
  intro fuel
  induction fuel with
  | zero =>
    intro rc st hle
    have hrc : ¬ rc < mR := by omega
    simp [executeTaskGo, taskAttempt_unknown env mR st task rc h, taskFinish,
          Nat.sub_eq_zero_of_le (by omega : mR ≤ rc)]
  | succ f ih =>
    intro rc st hle
    by_cases hrc : rc < mR
    · have hle' : mR - (rc + 1) ≤ f := by omega
      have key := taskAttempt_unknown env mR st task rc h
      by_cases hct : containsTimeout ("Unknown action: " ++ task.action)
      · obtain ⟨h1, h2, h3⟩ := ih (rc + 1)
          { st with world := env.reload st.world } hle'
        simp only [executeTaskGo, key]
        simp [hrc, hct, h1, h2, h3, TaskStats.mk.injEq]
        omega
      · obtain ⟨h1, h2, h3⟩ := ih (rc + 1) st hle'
        simp only [executeTaskGo, key]
        simp [hrc, hct, h1, h2, h3, TaskStats.mk.injEq]
        omega
    · simp [executeTaskGo, taskAttempt_unknown env mR st task rc h, hrc,
            taskFinish, Nat.sub_eq_zero_of_le (by omega : mR ≤ rc)]

/-- **C1 (amended).**  For a task whose action name is absent from the
registry, `execute_task` does return an `ActionResult` with
`success=false` and the `Unknown action` error, the environment is never
invoked, and the page is not reloaded (for action names that do not put
`"timeout"` into the error message) — but the failure *is* retried: the
generic retry path re-executes the unknown-action task `max_retries`
times (sleeping before each retry) before the failure is returned. -/
theorem executeTask_unknown_action {W : Type} (env : ExecEnv W) (mR : Nat)
    (st : ExecState W) (task : PlanTask)
    (h : task.action ∉ registryNames)
    (hct : ¬ containsTimeout ("Unknown action: " ++ task.action)) :
    (executeTask env mR st task).result.success = false ∧
    (executeTask env mR st task).result.error =
      some ("Unknown action: " ++ task.action) ∧
    (executeTask env mR st task).task = task ∧
    (executeTask env mR st task).stats.envCalls = 0 ∧
    (executeTask env mR st task).stats.retries = mR ∧
    (executeTask env mR st task).stats.reloads = 0 := by
  obtain ⟨h1, h2, h3⟩ :=
    executeTaskGo_unknown env mR task h (mR + 1) 0 st (by omega)
  unfold executeTask
  rw [h1, h2, h3]
  simp [hct]

/-- Witness for C1 (amended) at a concrete unregistered action. -/
theorem executeTask_unknown_action_witness :
    ((executeTask (W := Unit)
        { step := fun w n _ => ({ success := true, action_name := n }, w),
          reload := id } 3
        { world := (), logger := { logs_dir := "./logs" } }
        { action := "frobnicate" }).result.success = false ∧
     (executeTask (W := Unit)
        { step := fun w n _ => ({ success := true, action_name := n }, w),
          reload := id } 3
        { world := (), logger := { logs_dir := "./logs" } }
        { action := "frobnicate" }).result.error =
       some ("Unknown action: " ++ "frobnicate") ∧
     (executeTask (W := Unit)
        { step := fun w n _ => ({ success := true, action_name := n }, w),
          reload := id } 3
        { world := (), logger := { logs_dir := "./logs" } }
        { action := "frobnicate" }).task = { action := "frobnicate" } ∧
     (executeTask (W := Unit)
        { step := fun w n _ => ({ success := true, action_name := n }, w),
          reload := id } 3
        { world := (), logger := { logs_dir := "./logs" } }
        { action := "frobnicate" }).stats.envCalls = 0 ∧
     (executeTask (W := Unit)
        { step := fun w n _ => ({ success := true, action_name := n }, w),
          reload := id } 3
        { world := (), logger := { logs_dir := "./logs" } }
        { action := "frobnicate" }).stats.retries = 3 ∧
     (executeTask (W := Unit)
        { step := fun w n _ => ({ success := true, action_name := n }, w),
          reload := id } 3
        { world := (), logger := { logs_dir := "./logs" } }
        { action := "frobnicate" }).stats.reloads = 0) :=
  executeTask_unknown_action _ 3 _ _ (by decide) (by decide)

/-- **C1 (counterexample).**  The claim says an unknown-action failure is
returned "immediately and performs no retry attempts": with the default
`max_retries = 3`, the executor in fact re-executes the failing task three
times (`stats.retries = 3 ≠ 0`) before returning the failure. -/
theorem executeTask_unknown_action_retry_counterexample :
    (executeTask (W := Unit)
        { step := fun w n _ => ({ success := true, action_name := n }, w),
          reload := id } 3
        { world := (), logger := { logs_dir := "./logs" } }
        { action := "frobnicate" }).stats.retries ≠ 0 ∧
    (executeTask (W := Unit)
        { step := fun w n _ => ({ success := true, action_name := n }, w),
          reload := id } 3
        { world := (), logger := { logs_dir := "./logs" } }
        { action := "frobnicate" }).stats.retries = 3 := by
  constructor <;> decide

/-- Overwriting the same key twice is the same as writing it once. -/
theorem dictSet_dictSet (l : List (String × Value)) (k : String)
    (v v' : Value) : dictSet (dictSet l k v) k v' = dictSet l k v' := by
  induction l with
  | nil => simp [dictSet]
  | cons kv t ih =>
    rcases kv with ⟨k₀, v₀⟩
    by_cases h : k₀ = k <;> simp [dictSet, h, ih]


/-- `taskFinish` returns the task it was given. -/
theorem taskFinish_task {W : Type} (st : ExecState W) (t : PlanTask)
    (r : ActionResult) (s : TaskStats) : (taskFinish st t r s).task = t := rfl

/-- `taskFinish` returns the result it was given. -/
theorem taskFinish_result {W : Type} (st : ExecState W) (t : PlanTask)
    (r : ActionResult) (s : TaskStats) :
    (taskFinish st t r s).result = r := rfl

/-- `taskFinish` returns the stats it was given. -/
theorem taskFinish_stats {W : Type} (st : ExecState W) (t : PlanTask)
    (r : ActionResult) (s : TaskStats) :
    (taskFinish st t r s).stats = s := rfl

/-- The repair step either leaves the task untouched or overwrites exactly
its `"selector"` param. -/
theorem repairExtract_task {W : Type} (env : ExecEnv W) (mR : Nat)
    (st2 : ExecState W) (task : PlanTask) (result : ActionResult)
    (calls rc : Nat) :
    (repairExtract env mR st2 task result calls rc).2.1 = task ∨
    ∃ s, (repairExtract env mR st2 task result calls rc).2.1 =
      { task with params := dictSet task.params "selector" (.str s) } := by
  unfold repairExtract
  split
  next d =>
    split
    · split
      next sel0 rest _ =>
        split
        · rcases hs : env.step st2.world task.action
              (dictSet task.params "selector" (.str (splitFirst sel0 " ("))) with
            ⟨r', w2⟩
          simp only [hs]
          exact Or.inr ⟨splitFirst sel0 " (", rfl⟩
        · exact Or.inl rfl
      next _ => exact Or.inl rfl
    · exact Or.inl rfl
  next => exact Or.inl rfl

/-- One `taskAttempt` either leaves the task untouched or (only for a
failing `extract`) overwrites exactly its `"selector"` param in place. -/
theorem taskAttempt_task {W : Type} (env : ExecEnv W) (mR : Nat)
    (st : ExecState W) (task : PlanTask) (rc : Nat) :
    (taskAttempt env mR st task rc).2.1 = task ∨
    (task.action = "extract" ∧ ∃ s, (taskAttempt env mR st task rc).2.1 =
       { task with params := dictSet task.params "selector" (.str s) }) := by
  unfold taskAttempt
  by_cases hreg : task.action ∈ registryNames
  · rcases hs : env.step st.world task.action task.params with ⟨result, w1⟩
    simp only [if_pos hreg, hs]
    by_cases hfail : (!result.success && (task.action == "extract")) = true
    · have hx : task.action = "extract" := by
        have := (Bool.and_eq_true _ _).mp hfail
        simpa using this.2
      rw [if_pos hfail]
      rcases repairExtract_task env mR
          (storeInspect { st with world := w1 } task.action result) task result
          1 rc with hid | ⟨s, hmut⟩
      · exact Or.inl hid
      · exact Or.inr ⟨hx, s, hmut⟩
    · rw [if_neg hfail]
      exact Or.inl rfl
  · simp only [if_neg hreg]
    have hex : (task.action == "extract") = false := by
      by_contra hne
      have : task.action = "extract" := by
        simpa using Bool.of_not_eq_false hne
      exact hreg (this ▸ (by decide : "extract" ∈ registryNames))
    simp only [Bool.not_false, Bool.true_and, hex]
    exact Or.inl rfl

/-- `execute_task` (with retries) either leaves the task untouched or — only
for an `extract` task — overwrites exactly its `"selector"` param. -/
theorem executeTaskGo_task {W : Type} (env : ExecEnv W) (mR : Nat) :
    ∀ (fuel : Nat) (st : ExecState W) (task : PlanTask) (rc : Nat),
    (executeTaskGo env mR fuel st task rc).task = task ∨
    (task.action = "extract" ∧
      ∃ s, (executeTaskGo env mR fuel st task rc).task =
        { task with params := dictSet task.params "selector" (.str s) }) := by
  intro fuel
  induction fuel with
  | zero =>
    intro st task rc
    rcases ha : taskAttempt env mR st task rc with ⟨st1, task1, result, calls⟩
    have := taskAttempt_task env mR st task rc
    rw [ha] at this
    simpa [executeTaskGo, ha, taskFinish_task] using this
  | succ f ih =>
    intro st task rc
    rcases ha : taskAttempt env mR st task rc with ⟨st1, task1, result, calls⟩
    have htask := taskAttempt_task env mR st task rc
    rw [ha] at htask
    simp only [executeTaskGo, ha]
    by_cases hcond : (!result.success && decide (rc < mR)) = true
    · simp only [hcond, if_true]
      rcases htask with h1 | ⟨hx, s, h1⟩
      · -- task unchanged by the attempt
        subst h1
        rcases ih (if containsTimeout
              (match result.error with | some e => e | none => "None") then
            { st1 with world := env.reload st1.world } else st1) task1 (rc + 1)
          with h2 | ⟨hx2, s2, h2⟩
        · exact Or.inl h2
        · exact Or.inr ⟨hx2, s2, h2⟩
      · -- the attempt rewrote the selector; the retries may rewrite it again
        subst h1
        rcases ih (if containsTimeout
              (match result.error with | some e => e | none => "None") then
            { st1 with world := env.reload st1.world } else st1)
          { task with params := dictSet task.params "selector" (.str s) }
          (rc + 1) with h2 | ⟨_, s2, h2⟩
        · exact Or.inr ⟨hx, s, h2⟩
        · refine Or.inr ⟨hx, s2, ?_⟩
          simpa [dictSet_dictSet] using h2
    · simp only [hcond, if_false]
      simpa [taskFinish_task] using htask

/-- **C2 (amended).**  `execute_task` leaves the task's `action` and
`description` unchanged, and leaves the whole task unchanged whenever its
action is not `extract`; for an `extract` task, every params entry other
than `"selector"` is unchanged, but the suggested-selector repair path may
overwrite the `"selector"` entry of the task's params dict in place. -/
theorem executeTask_task_frame {W : Type} (env : ExecEnv W) (mR : Nat)
    (st : ExecState W) (task : PlanTask) :
    (executeTask env mR st task).task.action = task.action ∧
    (executeTask env mR st task).task.description = task.description ∧
    (task.action ≠ "extract" → (executeTask env mR st task).task = task) ∧
    ∀ k, k ≠ "selector" →
      dictFind (executeTask env mR st task).task.params k =
        dictFind task.params k := by
  rcases executeTaskGo_task env mR (mR + 1) st task 0 with h | ⟨hx, s, h⟩
  · rw [executeTask, h]
    exact ⟨rfl, rfl, fun _ => rfl, fun _ _ => rfl⟩
  · rw [executeTask, h]
    exact ⟨rfl, rfl, fun hne => absurd hx hne,
           fun k hk => dictFind_dictSet_ne task.params (.str s) hk⟩

/-- Witness for C2 (amended): a concrete non-extract task comes back
untouched, and a params key other than `"selector"` survives a concrete
extract run. -/
theorem executeTask_task_frame_witness :
    ((executeTask (W := Unit)
        { step := fun w n _ => ({ success := true, action_name := n }, w),
          reload := id } 1
        { world := (), logger := { logs_dir := "./logs" } }
        { action := "click", params := [("selector", .str "#btn")] }).task =
      { action := "click", params := [("selector", .str "#btn")] }) ∧
    dictFind (executeTask (W := Unit)
        { step := fun w n _ =>
            ({ success := false, action_name := n,
               error := some "no match" }, w),
          reload := id } 1
        { world := (),
          last_inspect := some
            [("suggested_selectors", .list [.str "article (5)"])],
          logger := { logs_dir := "./logs" } }
        { action := "extract",
          params := [("selector", .str ".old"), ("save_as", .str "x")] }).task.params
      "save_as" =
      dictFind [("selector", Value.str ".old"), ("save_as", Value.str "x")]
        "save_as" :=
  ⟨(executeTask_task_frame _ 1 _ _).2.2.1 (by decide),
   (executeTask_task_frame _ 1 _ _).2.2.2 "save_as" (by decide)⟩

/-- Fixture: an action environment whose `extract` always fails. -/
def failingExtractEnv : ExecEnv Unit :=
  { step := fun w n _ =>
      ({ success := false, action_name := n, error := some "no match" }, w),
    reload := id }

/-- Fixture: executor state holding a stored inspect result with one
suggested selector `"article (5)"`. -/
def inspectSt : ExecState Unit :=
  { world := (),
    last_inspect := some [("suggested_selectors", .list [.str "article (5)"])],
    logger := { logs_dir := "./logs" } }

/-- Fixture: an extract task whose params select `".old"`. -/
def oldSelTask : PlanTask :=
  { action := "extract", params := [("selector", .str ".old")] }

/-- **C2 (counterexample).**  The claim says `execute_task` never changes
the task, including its params' `"selector"` entry.  On a failing extract
with a stored inspect result, the repair path rewrites the selector in
place: the task comes back with `params["selector"] = "article"` instead of
the original `".old"`, so it is not the task that went in. -/
theorem executeTask_mutates_task_counterexample :
    dictFind (executeTask failingExtractEnv 1 inspectSt oldSelTask).task.params
      "selector" = some (.str "article") ∧
    dictFind oldSelTask.params "selector" = some (.str ".old") ∧
    (executeTask failingExtractEnv 1 inspectSt oldSelTask).task ≠
      oldSelTask := by
  refine ⟨rfl, rfl, ?_⟩
  intro hcontra
  have h1 : some (Value.str "article") = some (Value.str ".old") := by
    calc some (Value.str "article")
        = dictFind (executeTask failingExtractEnv 1 inspectSt
            oldSelTask).task.params "selector" := rfl
      _ = dictFind oldSelTask.params "selector" := by rw [hcontra]
      _ = some (Value.str ".old") := rfl
  have h2 := Option.some.inj h1
  injection h2 with h3
  exact absurd h3 (by decide)


/-- With no pagination spec, every iteration of the loop body ends the loop
(`inl`), reporting the incremented iteration counter: there is no path into
a second iteration. -/
theorem loopIter_no_pagination_inl {W E : Type} (env : PageEnv W E)
    (pattern : List (List (String × Value))) (stopType stopValue : Value)
    (onEmpty : String) (iter : Nat) (collected : List Value) (w : W) :
    ∃ out w', loopIter env pattern none stopType stopValue onEmpty
        iter collected w = .inl (out, w') ∧ out.iterations = iter := by
  unfold loopIter
  rcases hs : stepsRun env [] pattern w with ⟨r, w1⟩
  cases r with
  | error e => exact ⟨_, _, rfl, rfl⟩
  | ok d =>
    dsimp only
    by_cases h1 : (d.isEmpty && (onEmpty == "stop")) = true
    · rw [if_pos h1]
      exact ⟨_, _, rfl, rfl⟩
    · rw [if_neg h1]
      rcases hsc : stopCheck stopType stopValue iter with _ | exc
      · by_cases h2 : (vEqStr stopType "empty_results" && d.isEmpty) = true
        · rw [if_pos h2]
          exact ⟨_, _, rfl, rfl⟩
        · rw [if_neg h2]
          exact ⟨_, _, rfl, rfl⟩
      · exact ⟨_, _, rfl, rfl⟩

/-- The loop with fuel `m + 1` runs its first iteration; when that
iteration ends the loop, the loop's outcome is that iteration's. -/
theorem loopGo_one {W E : Type} (env : PageEnv W E)
    (pattern : List (List (String × Value)))
    (pagination : Option (List (String × Value)))
    (stopType stopValue : Value) (onEmpty : String) (m : Nat) (w : W)
    (out : LoopOut) (w' : W)
    (h : loopIter env pattern pagination stopType stopValue onEmpty 1 [] w =
      .inl (out, w')) :
    loopGo env pattern pagination stopType stopValue onEmpty (m + 1) 0 [] w =
      (out, w') := by
  simp only [loopGo, h]

/-- **C4 (amended).**  For every non-empty pattern and `max_iterations ≥ 1`,
running `LoopAction.execute` with no pagination spec performs exactly one
iteration: the result's `metadata["iterations"]` is 1 (on the graceful exit
and on the exception exit alike), and the loop terminates there. -/
theorem loopExecute_no_pagination_single_iteration {W E : Type}
    (env : PageEnv W E) (pattern : List (List (String × Value)))
    (stopCondition : Option (List (String × Value))) (onEmpty : String)
    (maxIterations : Nat) (w : W) (hpat : pattern ≠ [])
    (hmax : 1 ≤ maxIterations) :
    dictFind (loopExecute env pattern none stopCondition onEmpty
        maxIterations w).1.metadata "iterations" = some (.nat 1) := by
  obtain ⟨m, rfl⟩ : ∃ m, maxIterations = m + 1 :=
    ⟨maxIterations - 1, by omega⟩
  have hne : pattern.isEmpty = false := by
    cases pattern with
    | nil => exact absurd rfl hpat
    | cons a t => rfl
  unfold loopExecute
  rw [hne]
  simp only [Bool.false_eq_true, if_false]
  rcases stopCondition with _ | sc
  · dsimp only
    rcases loopIter_no_pagination_inl env pattern (.str "max_iterations")
        (.nat (m + 1)) onEmpty 1 [] w with ⟨out, w', hiter, hone⟩
    rw [loopGo_one env pattern none _ _ onEmpty m w out w' hiter]
    cases hexc : out.exc <;> simp [hexc, dictFind, hone]
  · dsimp only
    by_cases hemp : sc.isEmpty <;>
      [skip; (have hemp' : sc.isEmpty = false := by simpa using hemp)]
    · simp only [hemp, Bool.not_true, Bool.false_eq_true, if_false]
      rcases loopIter_no_pagination_inl env pattern (.str "max_iterations")
          (.nat (m + 1)) onEmpty 1 [] w with ⟨out, w', hiter, hone⟩
      rw [loopGo_one env pattern none _ _ onEmpty m w out w' hiter]
      cases hexc : out.exc <;> simp [hexc, dictFind, hone]
    · simp only [hemp', Bool.not_false, if_true]
      rcases loopIter_no_pagination_inl env pattern
          (dictGetD sc "type" (.str "max_iterations"))
          (dictGetD sc "value" (.nat (m + 1))) onEmpty 1 [] w with
        ⟨out, w', hiter, hone⟩
      rw [loopGo_one env pattern none _ _ onEmpty m w out w' hiter]
      cases hexc : out.exc <;> simp [hexc, dictFind, hone]

/-- Fixture: a trivial page over the unit world — every query returns
nothing, every interaction succeeds. -/
def unitPage : PageEnv Unit Unit :=
  { waitForSelector := fun _ _ _ => pureW PUnit.unit,
    waitForLoadState := fun _ _ => pureW PUnit.unit,
    queryAll := fun _ => pureW [],
    query := fun _ => pureW none,
    queryIn := fun _ _ => pureW none,
    textContent := fun _ => pureW none,
    getAttr := fun _ _ => pureW none,
    clickSel := fun _ => pureW PUnit.unit,
    clickElem := fun _ => pureW PUnit.unit,
    evalScroll := pureW PUnit.unit,
    goto := fun _ => pureW PUnit.unit,
    fill := fun _ _ => pureW PUnit.unit,
    typeTextOp := fun _ _ => pureW PUnit.unit,
    press := fun _ _ => pureW PUnit.unit,
    registry := [],
    registryExec := fun _ _ => pureW { success := true, action_name := "x" } }

/-- Witness for C4 (amended) on a one-step wait pattern. -/
theorem loopExecute_no_pagination_single_iteration_witness :
    dictFind (loopExecute unitPage [[("action", .str "wait")]] none none
        "stop" 100 ()).1.metadata "iterations" = some (.nat 1) :=
  loopExecute_no_pagination_single_iteration unitPage
    [[("action", .str "wait")]] none "stop" 100 ()
    (List.cons_ne_nil _ _) (by decide)

/-- **C4 (counterexample).**  The claim quantifies over "every value of
`max_iterations`": with `max_iterations = 0` the `while` loop body never
runs, so the loop performs 0 iterations, not 1 — `metadata["iterations"]`
is 0. -/
theorem loopExecute_zero_max_iterations_counterexample :
    dictFind (loopExecute unitPage [[("action", .str "wait")]] none none
        "stop" 0 ()).1.metadata "iterations" = some (.nat 0) ∧
    dictFind (loopExecute unitPage [[("action", .str "wait")]] none none
        "stop" 0 ()).1.metadata "iterations" ≠ some (.nat 1) := by
  refine ⟨rfl, ?_⟩
  intro hcontra
  have h1 : Value.nat 0 = Value.nat 1 := by
    have h0 : dictFind (loopExecute unitPage [[("action", .str "wait")]] none
        none "stop" 0 ()).1.metadata "iterations" = some (.nat 0) := rfl
    exact Option.some.inj (h0 ▸ hcontra)
  injection h1 with h2
  exact absurd h2 (by decide)

/-- An exception raised by the next-button query inside `_paginate` is
caught and reported as `False` — "no next page" — rather than propagated. -/
theorem paginate_raise_false {W E : Type} (env : PageEnv W E)
    (pag : List (String × Value)) (w w' : W) (e : String)
    (htype : dictGetD pag "type" (.str "click") = .str "click")
    (hq : env.query (dictGetD pag "selector" .null) w = (.error e, w')) :
    paginate env pag w = (false, w') := by
  unfold paginate
  rw [htype]
  simp only [vEqStr, beq_self_eq_true, if_true, catchW, bindW, hq, pureW]

/-- When every step of the pattern executes without raising, the pattern
loop executes without raising. -/
theorem stepsRun_ok {W E : Type} (env : PageEnv W E) :
    ∀ (pat : List (List (String × Value))),
      (∀ s ∈ pat, ∀ w : W, ∃ r w', executeStep env s w = (.ok r, w')) →
      ∀ (acc : List Value) (w : W),
        ∃ d w', stepsRun env acc pat w = (.ok d, w') := by
  intro pat
  induction pat with
  | nil => exact fun _ acc w => ⟨acc, w, rfl⟩
  | cons s rest ih =>
    intro hsteps acc w
    obtain ⟨r, w1, hr⟩ := hsteps s (by simp) w
    have ihr := ih (fun s' hs' w' => hsteps s' (by simp [hs']) w')
    by_cases hsucc : r.success
    · obtain ⟨d, w', hd⟩ := ihr
        (match r.data with
         | some dv => if vTruthy dv then acc ++ [dv] else acc
         | none => acc) w1
      refine ⟨d, w', ?_⟩
      simp only [stepsRun, bindW, hr, hsucc, Bool.not_true, Bool.false_eq_true,
                 if_false]
      exact hd
    · refine ⟨acc, w1, ?_⟩
      simp only [stepsRun, bindW, hr]
      simp [hsucc, pureW]

/-- With raise-free steps, a numeric `max_iterations` stop value, and a
pagination that always reports "no next page", every loop iteration ends
the loop gracefully (no exception, counter as incremented). -/
theorem loopIter_pag_false_inl {W E : Type} (env : PageEnv W E)
    (pattern : List (List (String × Value))) (pag : List (String × Value))
    (stopType stopValue : Value) (onEmpty : String)
    (hsteps : ∀ s ∈ pattern, ∀ w : W, ∃ r w',
      executeStep env s w = (.ok r, w'))
    (hnum : (∃ n, stopValue = .nat n) ∨
      vEqStr stopType "max_iterations" = false)
    (hpagf : ∀ w : W, (paginate env pag w).1 = false)
    (iter : Nat) (collected : List Value) (w : W) :
    ∃ out w', loopIter env pattern (some pag) stopType stopValue onEmpty
        iter collected w = .inl (out, w') ∧ out.exc = none ∧
      out.iterations = iter := by
  obtain ⟨d, w1, hd⟩ := stepsRun_ok env pattern hsteps [] w
  unfold loopIter
  rw [hd]
  dsimp only
  by_cases h1 : (d.isEmpty && (onEmpty == "stop")) = true
  · rw [if_pos h1]
    exact ⟨_, _, rfl, rfl, rfl⟩
  · rw [if_neg h1]
    have hstop : stopCheck stopType stopValue iter = none ∨
        stopCheck stopType stopValue iter = some none := by
      unfold stopCheck
      rcases hnum with ⟨n, rfl⟩ | hne
      · by_cases ht : vEqStr stopType "max_iterations" = true
        · rw [if_pos ht]
          by_cases hn : iter ≥ n <;> simp [hn]
        · rw [if_neg ht]
          exact Or.inl rfl
      · rw [hne]
        simp
    rcases hstop with hsc | hsc
    · rw [hsc]
      by_cases h2 : (vEqStr stopType "empty_results" && d.isEmpty) = true
      · rw [if_pos h2]
        exact ⟨_, _, rfl, rfl, rfl⟩
      · rw [if_neg h2]
        by_cases h3 : pag.isEmpty
        · simp only [h3, Bool.not_true, Bool.false_eq_true, if_false]
          exact ⟨_, _, rfl, rfl, rfl⟩
        · have h3' : pag.isEmpty = false := by simpa using h3
          simp only [h3', Bool.not_false, if_true]
          rcases hpg : paginate env pag w1 with ⟨hasNext, w2⟩
          have : hasNext = false := by
            have := hpagf w1
            rw [hpg] at this
            exact this
          subst this
          simp only [Bool.not_false, if_true]
          exact ⟨_, _, rfl, rfl, rfl⟩
    · rw [hsc]
      exact ⟨_, _, rfl, rfl, rfl⟩

/-- Under raise-free steps, numeric stop value, and always-false
pagination, the loop runs exactly one iteration and exits gracefully. -/
theorem loopRun_graceful {W E : Type} (env : PageEnv W E)
    (pattern : List (List (String × Value))) (pag : List (String × Value))
    (stopType stopValue : Value) (onEmpty : String) (m : Nat) (w : W)
    (hsteps : ∀ s ∈ pattern, ∀ w : W, ∃ r w',
      executeStep env s w = (.ok r, w'))
    (hnum : (∃ n, stopValue = .nat n) ∨
      vEqStr stopType "max_iterations" = false)
    (hpagf : ∀ w : W, (paginate env pag w).1 = false) :
    ∃ out w', loopGo env pattern (some pag) stopType stopValue onEmpty
        (m + 1) 0 [] w = (out, w') ∧ out.exc = none ∧
      out.iterations = 1 := by
  rcases loopIter_pag_false_inl env pattern pag stopType stopValue onEmpty
      hsteps hnum hpagf 1 [] w with ⟨out, w', h, hexc, hone⟩
  exact ⟨out, w', loopGo_one env pattern (some pag) stopType stopValue
    onEmpty m w out w' h, hexc, hone⟩

/-- **C5.**  For a loop run with a pagination spec whose page interaction
raises (here: the next-button query): the exception is treated as "no next
page" (`_paginate` returns `False`), the loop stops after the current
iteration, and `LoopAction.execute` still returns `success=true` carrying
the data collected so far — not a failure.  (The side conditions ask that
the pattern's own steps do not raise and that any `stop_condition` value is
numeric, so that the only exception in the run is the pagination one.) -/
theorem loopExecute_pagination_exception_graceful {W E : Type}
    (env : PageEnv W E) (pattern : List (List (String × Value)))
    (pag : List (String × Value))
    (stopCondition : Option (List (String × Value))) (onEmpty : String)
    (maxIterations : Nat) (w : W) (hpat : pattern ≠ [])
    (hmax : 1 ≤ maxIterations)
    (hsteps : ∀ s ∈ pattern, ∀ w : W, ∃ r w',
      executeStep env s w = (.ok r, w'))
    (htype : dictGetD pag "type" (.str "click") = .str "click")
    (hq : ∀ w₀ : W, ∃ e w', env.query (dictGetD pag "selector" .null) w₀ =
      (.error e, w'))
    (hsv : ∀ sc, stopCondition = some sc → sc.isEmpty = false →
      (∃ n, dictGetD sc "value" (.nat maxIterations) = .nat n) ∨
      vEqStr (dictGetD sc "type" (.str "max_iterations"))
        "max_iterations" = false) :
    (∀ w₀ : W, (paginate env pag w₀).1 = false) ∧
    (loopExecute env pattern (some pag) stopCondition onEmpty
        maxIterations w).1.success = true ∧
    dictFind (loopExecute env pattern (some pag) stopCondition onEmpty
        maxIterations w).1.metadata "iterations" = some (.nat 1) ∧
    ∃ c, (loopExecute env pattern (some pag) stopCondition onEmpty
        maxIterations w).1.data = some (.list c) ∧
      dictFind (loopExecute env pattern (some pag) stopCondition onEmpty
          maxIterations w).1.metadata "items_collected" =
        some (.nat c.length) := by
  have hpagf : ∀ w₀ : W, (paginate env pag w₀).1 = false := by
    intro w₀
    obtain ⟨e, w', hqe⟩ := hq w₀
    rw [paginate_raise_false env pag w₀ w' e htype hqe]
  refine ⟨hpagf, ?_⟩
  obtain ⟨m, rfl⟩ : ∃ m, maxIterations = m + 1 :=
    ⟨maxIterations - 1, by omega⟩
  have hne : pattern.isEmpty = false := by
    cases pattern with
    | nil => exact absurd rfl hpat
    | cons a t => rfl
  unfold loopExecute
  rw [hne]
  simp only [Bool.false_eq_true, if_false]
  rcases hscnd : stopCondition with _ | sc
  · dsimp only
    obtain ⟨out, w', hrun, hexc, hone⟩ := loopRun_graceful env pattern pag
      (.str "max_iterations") (.nat (m + 1)) onEmpty m w hsteps
      (Or.inl ⟨m + 1, rfl⟩) hpagf
    rw [hrun]
    dsimp only
    rw [hexc]
    exact ⟨rfl, by simp [dictFind, hone],
           out.collected, rfl, by simp [dictFind]⟩
  · by_cases hemp : sc.isEmpty
    · simp only [hemp, Bool.not_true, Bool.false_eq_true, if_false]
      obtain ⟨out, w', hrun, hexc, hone⟩ := loopRun_graceful env pattern pag
        (.str "max_iterations") (.nat (m + 1)) onEmpty m w hsteps
        (Or.inl ⟨m + 1, rfl⟩) hpagf
      rw [hrun]
      dsimp only
      rw [hexc]
      exact ⟨rfl, by simp [dictFind, hone],
             out.collected, rfl, by simp [dictFind]⟩
    · have hemp' : sc.isEmpty = false := by simpa using hemp
      simp only [hemp', Bool.not_false, if_true]
      obtain ⟨out, w', hrun, hexc, hone⟩ := loopRun_graceful env pattern pag
        (dictGetD sc "type" (.str "max_iterations"))
        (dictGetD sc "value" (.nat (m + 1))) onEmpty m w hsteps
        (hsv sc hscnd hemp') hpagf
      rw [hrun]
      dsimp only
      rw [hexc]
      exact ⟨rfl, by simp [dictFind, hone],
             out.collected, rfl, by simp [dictFind]⟩

/-- Fixture: the trivial page whose element queries raise (as a Playwright
timeout would). -/
def raisePage : PageEnv Unit Unit :=
  { unitPage with query := fun _ => throwW "Timeout 5000ms exceeded" }

/-- Witness for C5: a one-step wait pattern with a click pagination whose
next-button query raises. -/
theorem loopExecute_pagination_exception_graceful_witness :
    (∀ w₀ : Unit, (paginate raisePage [("selector", .str "a.next")] w₀).1 =
      false) ∧
    (loopExecute raisePage [[("action", .str "wait")]]
        (some [("selector", .str "a.next")]) none "stop" 100 ()).1.success =
      true ∧
    dictFind (loopExecute raisePage [[("action", .str "wait")]]
        (some [("selector", .str "a.next")]) none "stop" 100
        ()).1.metadata "iterations" = some (.nat 1) ∧
    ∃ c, (loopExecute raisePage [[("action", .str "wait")]]
        (some [("selector", .str "a.next")]) none "stop" 100 ()).1.data =
      some (.list c) ∧
      dictFind (loopExecute raisePage [[("action", .str "wait")]]
          (some [("selector", .str "a.next")]) none "stop" 100
          ()).1.metadata "items_collected" = some (.nat c.length) :=
  loopExecute_pagination_exception_graceful raisePage
    [[("action", .str "wait")]] [("selector", .str "a.next")] none "stop"
    100 () (List.cons_ne_nil _ _) (by decide)
    (by
      intro s hs w
      simp only [List.mem_singleton] at hs
      subst hs
      exact ⟨_, _, rfl⟩)
    rfl
    (fun w₀ => ⟨_, w₀, rfl⟩)
    (fun sc h => nomatch h)

/-- The replay loop: the success count is exactly the number of per-action
result dicts with a truthy `"success"`, at most one result per recorded
action is produced, and with `stop_on_error` every result before the last
one is a success (the first failure ends the loop). -/
theorem replayLoop_spec {W E : Type} (env : PageEnv W E) (stop : Bool) :
    ∀ (acts : List Value) (w : W),
      (replayLoop env stop w acts).2.1 =
        (replayLoop env stop w acts).1.countP
          (fun r => vTruthy (vGetD r "success" .null)) ∧
      (replayLoop env stop w acts).1.length ≤ acts.length ∧
      (stop = true → ∀ r ∈ (replayLoop env stop w acts).1.dropLast,
        vTruthy (vGetD r "success" .null) = true) := by
  intro acts
  induction acts with
  | nil =>
    intro w
    simp [replayLoop]
  | cons a rest ih =>
    intro w
    rcases hx : replayExecAction env (vGetD a "action" .null)
        (vGetD a "params" (.dict [])) w with ⟨r', w1⟩
    cases r' with
    | ok result =>
      by_cases hsucc : vTruthy (vGetD result "success" .null) = true
      · rcases hrec : replayLoop env stop w1 rest with ⟨rs, sc, w2⟩
        obtain ⟨ih1, ih2, ih3⟩ := ih w1
        rw [hrec] at ih1 ih2 ih3
        dsimp only at ih1 ih2 ih3
        have hstep : replayLoop env stop w (a :: rest) =
            (result :: rs, sc + 1, w2) := by
          simp only [replayLoop, hx, hsucc, if_true, hrec]
        rw [hstep]
        refine ⟨?_, by simpa using ih2, ?_⟩
        · simp [List.countP_cons, hsucc, ih1]
        · intro hst r hr
          cases rs with
          | nil => simp at hr
          | cons b bs =>
            rw [List.dropLast_cons₂] at hr
            rcases List.mem_cons.mp hr with rfl | hr'
            · exact hsucc
            · exact ih3 hst r hr'
      · have hsucc' : vTruthy (vGetD result "success" .null) = false := by
          simpa using hsucc
        cases stop with
        | true =>
          have hstep : replayLoop env true w (a :: rest) =
              ([result], 0, w1) := by
            simp only [replayLoop, hx, hsucc', Bool.false_eq_true, if_false,
                       if_true]
          rw [hstep]
          refine ⟨by simp [List.countP_cons, hsucc'], by simp, ?_⟩
          intro _ r hr
          simp [List.dropLast_single] at hr
        | false =>
          rcases hrec : replayLoop env false w1 rest with ⟨rs, sc, w2⟩
          obtain ⟨ih1, ih2, _⟩ := ih w1
          rw [hrec] at ih1 ih2
          dsimp only at ih1 ih2
          have hstep : replayLoop env false w (a :: rest) =
              (result :: rs, sc, w2) := by
            simp only [replayLoop, hx, hsucc', Bool.false_eq_true, if_false,
                       hrec]
          rw [hstep]
          exact ⟨by simp [List.countP_cons, hsucc', ih1],
                 by simpa using ih2,
                 fun hst => absurd hst (by simp)⟩
    | error e =>
      have herr : vTruthy (vGetD (rErr e) "success" .null) = false := rfl
      cases stop with
      | true =>
        have hstep : replayLoop env true w (a :: rest) =
            ([rErr e], 0, w1) := by
          simp [replayLoop, hx]
        rw [hstep]
        refine ⟨by simp [List.countP_cons, herr], by simp, ?_⟩
        intro _ r hr
        simp [List.dropLast_single] at hr
      | false =>
        rcases hrec : replayLoop env false w1 rest with ⟨rs, sc, w2⟩
        obtain ⟨ih1, ih2, _⟩ := ih w1
        rw [hrec] at ih1 ih2
        dsimp only at ih1 ih2
        have hstep : replayLoop env false w (a :: rest) =
            (rErr e :: rs, sc, w2) := by
          simp [replayLoop, hx, hrec]
        rw [hstep]
        exact ⟨by simp [List.countP_cons, herr, ih1],
               by simpa using ih2,
               fun hst => absurd hst (by simp)⟩

/-- **C6.**  For a recorded session with a non-empty action list,
`Replayer.replay` reports `success=true` exactly when every replayed action
succeeded (`successful_actions == total_actions`, i.e. the results cover
all recorded actions and each has a truthy `"success"`); with
`stop_on_error=true` the first failure aborts the rest, so the per-action
results cover only a prefix (every result before the last is a success and
at most one result per recorded action exists). -/
theorem replay_success_iff_all_succeeded {W E : Type} (env : PageEnv W E)
    (ls : LoggerState) (sid : String) (stop : Bool) (w : W)
    (logData : Value) (acts : List Value)
    (hlog : getLog ls sid = some logData)
    (htruthy : vTruthy logData = true)
    (hact : vGet logData "actions" = some (.list acts))
    (hne : acts ≠ []) :
    ∃ res w' results sc,
      replay env ls sid stop w = some (res, w') ∧
      vGet res "total_actions" = some (.nat acts.length) ∧
      vGet res "successful_actions" = some (.nat sc) ∧
      vGet res "results" = some (.list results) ∧
      vGet res "success" = some (.bool (sc == acts.length)) ∧
      sc = results.countP (fun r => vTruthy (vGetD r "success" .null)) ∧
      results.length ≤ acts.length ∧
      (vGet res "success" = some (.bool true) ↔
        (results.length = acts.length ∧
          ∀ r ∈ results, vTruthy (vGetD r "success" .null) = true)) ∧
      (stop = true → ∀ r ∈ results.dropLast,
        vTruthy (vGetD r "success" .null) = true) := by
  have hactsne : acts.isEmpty = false := by
    cases acts with
    | nil => exact absurd rfl hne
    | cons x t => rfl
  obtain ⟨h1, h2, h3⟩ := replayLoop_spec env stop acts w
  rcases hrun : replayLoop env stop w acts with ⟨results, sc, w'⟩
  rw [hrun] at h1 h2 h3
  dsimp only at h1 h2 h3
  have hres : replay env ls sid stop w = some (.dict
      [("success", .bool (sc == acts.length)),
       ("session_id", .str sid),
       ("total_actions", .nat acts.length),
       ("successful_actions", .nat sc),
       ("results", .list results)], w') := by
    unfold replay
    rw [hlog]
    dsimp only
    unfold vGetD
    rw [hact]
    simp [htruthy, hrun,
          show vTruthy (.list acts) = true by simp [vTruthy, hactsne]]
  refine ⟨_, w', results, sc, hres, rfl, rfl, rfl, rfl, h1, h2, ?_, h3⟩
  constructor
  · intro hs
    have hb : (sc == acts.length) = true := by
      have := Option.some.inj hs
      injection this
    have hsc : sc = acts.length := by simpa using hb
    have hcount : results.countP
        (fun r => vTruthy (vGetD r "success" .null)) ≤ results.length :=
      List.countP_le_length _
    have hlen : results.length = acts.length := by omega
    refine ⟨hlen, ?_⟩
    have : results.countP (fun r => vTruthy (vGetD r "success" .null)) =
        results.length := by omega
    intro r hr
    exact List.countP_eq_length.mp this r hr
  · rintro ⟨hlen, hall⟩
    have : results.countP (fun r => vTruthy (vGetD r "success" .null)) =
        results.length := List.countP_eq_length.mpr hall
    have hsc : sc = acts.length := by omega
    simp only [hsc, beq_self_eq_true]
    rfl

/-- Fixture: a logger store holding one recorded session with one
`extract` action. -/
def replayLs : LoggerState :=
  { logs_dir := "./logs",
    fs := [("./logs/sess1.json", .dict [("actions",
        .list [.dict [("action", .str "extract"), ("params", .dict [])]])])] }

/-- Witness for C6 on the one-action recorded session above. -/
theorem replay_success_iff_all_succeeded_witness :
    ∃ res w' results sc,
      replay unitPage replayLs "sess1" true () = some (res, w') ∧
      vGet res "total_actions" = some (.nat
        [Value.dict [("action", .str "extract"), ("params", .dict [])]].length) ∧
      vGet res "successful_actions" = some (.nat sc) ∧
      vGet res "results" = some (.list results) ∧
      vGet res "success" = some (.bool (sc ==
        [Value.dict [("action", .str "extract"), ("params", .dict [])]].length)) ∧
      sc = results.countP (fun r => vTruthy (vGetD r "success" .null)) ∧
      results.length ≤
        [Value.dict [("action", .str "extract"), ("params", .dict [])]].length ∧
      (vGet res "success" = some (.bool true) ↔
        (results.length =
          [Value.dict [("action", .str "extract"),
            ("params", .dict [])]].length ∧
          ∀ r ∈ results, vTruthy (vGetD r "success" .null) = true)) ∧
      (true = true → ∀ r ∈ results.dropLast,
        vTruthy (vGetD r "success" .null) = true) :=
  replay_success_iff_all_succeeded unitPage replayLs "sess1" true ()
    (.dict [("actions",
      .list [.dict [("action", .str "extract"), ("params", .dict [])]])])
    [Value.dict [("action", .str "extract"), ("params", .dict [])]]
    rfl rfl rfl (List.cons_ne_nil _ _)

/-- Every non-raising exit of the simple extraction is a success result. -/
theorem extractMain_ok {W E : Type} (env : PageEnv W E)
    (selector attrV multiple saveAs : Value) (w w' : W) (r : ActionResult)
    (h : extractMain env selector attrV multiple saveAs w = (.ok r, w')) :
    r.success = true := by
  unfold extractMain at h
  by_cases hm : vTruthy multiple = true
  · rw [if_pos hm] at h
    obtain ⟨els, w1, _, h2⟩ := bindW_eq_ok.mp h
    obtain ⟨data, w2, _, h3⟩ := bindW_eq_ok.mp h2
    simp only [pureW, Prod.mk.injEq, Except.ok.injEq] at h3
    rw [← h3.1]
  · rw [if_neg hm] at h
    obtain ⟨el?, w1, _, h2⟩ := bindW_eq_ok.mp h
    cases el? with
    | none => simp [throwW] at h2
    | some el =>
      obtain ⟨ds, w2, _, h3⟩ := bindW_eq_ok.mp h2
      simp only [pureW, Prod.mk.injEq, Except.ok.injEq] at h3
      rw [← h3.1]

/-- Every non-raising exit of the `_extract_complex` `try` block is a
success result. -/
theorem extractComplexBody_ok {W E : Type} (env : PageEnv W E)
    (cs : Value) (fields : List (String × Value)) (sa : Value) (w w' : W)
    (r : ActionResult)
    (h : extractComplexBody env cs fields sa w = (.ok r, w')) :
    r.success = true := by
  unfold extractComplexBody at h
  obtain ⟨els, w1, _, h2⟩ := bindW_eq_ok.mp h
  obtain ⟨data, w2, _, h3⟩ := bindW_eq_ok.mp h2
  simp only [pureW, Prod.mk.injEq, Except.ok.injEq] at h3
  rw [← h3.1]

/-- `_extract_complex` never raises and its failures carry an error. -/
theorem extractComplex_contract {W E : Type} (env : PageEnv W E)
    (cs : Value) (fields : List (String × Value)) (sa : Value) (w : W) :
    (extractComplex env cs fields sa w).1.success = false →
      (extractComplex env cs fields sa w).1.error.isSome = true := by
  rcases hb : extractComplexBody env cs fields sa w with ⟨rb, wb⟩
  cases rb with
  | ok rr =>
    unfold extractComplex
    rw [hb]
    dsimp only
    intro hfs
    exact absurd (extractComplexBody_ok env cs fields sa w wb rr hb)
      (by simp [hfs])
  | error e =>
    unfold extractComplex
    rw [hb]
    intro _
    rfl

/-- Every non-raising exit of the extract `try` block is a success result
or a `_extract_complex` failure carrying an error. -/
theorem extractTry_ok {W E : Type} (env : PageEnv W E)
    (selector attrV multiple saveAs timeout extractFields : Value)
    (w w' : W) (r : ActionResult)
    (h : extractTry env selector attrV multiple saveAs timeout extractFields
      w = (.ok r, w')) :
    r.success = false → r.error.isSome = true := by
  unfold extractTry at h
  obtain ⟨u, w1, hw, h2⟩ := bindW_eq_ok.mp h
  clear h hw
  by_cases hef : vTruthy extractFields = true
  · rw [if_pos hef] at h2
    cases extractFields
    all_goals try
      (dsimp only at h2
       exact fun hfs =>
         absurd (extractMain_ok env _ attrV multiple saveAs w1 w' r h2)
           (by simp [hfs]))
    next fields =>
      dsimp only at h2
      rcases hc : extractComplex env selector fields saveAs w1 with ⟨rc, wc⟩
      rw [hc] at h2
      simp only [Prod.mk.injEq, Except.ok.injEq] at h2
      obtain ⟨h21, h22⟩ := h2
      subst h21
      have := extractComplex_contract env selector fields saveAs w1
      rw [hc] at this
      exact this
  · rw [if_neg hef] at h2
    exact fun hfs =>
      absurd (extractMain_ok env selector attrV multiple saveAs w1 w' r h2)
        (by simp [hfs])

/-- Every non-raising exit of the wait `try` block is a success result or
the `No wait condition specified` failure, which carries an error. -/
theorem waitTry_ok {W E : Type} (env : PageEnv W E)
    (selector timeout state duration waitFor : Value) (w w' : W)
    (r : ActionResult)
    (h : waitTry env selector timeout state duration waitFor w =
      (.ok r, w')) :
    r.success = false → r.error.isSome = true := by
  unfold waitTry at h
  split at h
  · obtain ⟨u, w1, _, h2⟩ := bindW_eq_ok.mp h
    simp only [pureW, Prod.mk.injEq, Except.ok.injEq] at h2
    rw [← h2.1]
    intro hfs
    exact absurd hfs (by simp)
  · split at h
    · split at h <;>
        first
          | (simp only [pureW, Prod.mk.injEq, Except.ok.injEq] at h
             rw [← h.1]
             intro hfs
             exact absurd hfs (by simp))
          | simp [throwW] at h
    · split at h
      · obtain ⟨u, w1, _, h2⟩ := bindW_eq_ok.mp h
        simp only [pureW, Prod.mk.injEq, Except.ok.injEq] at h2
        rw [← h2.1]
        intro hfs
        exact absurd hfs (by simp)
      · split at h
        · obtain ⟨u, w1, _, h2⟩ := bindW_eq_ok.mp h
          simp only [pureW, Prod.mk.injEq, Except.ok.injEq] at h2
          rw [← h2.1]
          intro hfs
          exact absurd hfs (by simp)
        · simp only [pureW, Prod.mk.injEq, Except.ok.injEq] at h
          rw [← h.1]
          intro _
          rfl

/-! ## `src/actions/tab.py` — `TabAction`

`execute` validates `operation`, then runs `operation.lower()` *before* the
`try` block (line 48): for a truthy non-string `operation` the attribute
access raises `AttributeError` out of `execute` to its caller.  The five
tab helpers all sit inside the `try`; pages are an abstract type `P` and
the browser context operations are environment functions. -/

/-- ASCII model of `str.lower()`. -/
def strLower (s : String) : String := String.mk (s.toList.map chLower)

/-- The Python type-name part of an `AttributeError` message. -/
def pyTypeName : Value → String
  | .null => "'NoneType'"
  | .bool _ => "'bool'"
  | .nat _ => "'int'"
  | .str _ => "'str'"
  | .list _ => "'list'"
  | .dict _ => "'dict'"

/-- Run a computation that first reads the current world (e.g. Python code
that reads `self.context.pages` before acting). -/
def withW {W α : Type} (f : W → ExceptW W α) : ExceptW W α := fun w => f w w

/-- The browser-context operations `TabAction` uses, over an abstract world
`W` and page type `P`.  `context` may be `None` (`hasContext = false`). -/
structure TabEnv (W P : Type) where
  hasContext : Bool
  pages : W → List P
  newPage : ExceptW W P
  gotoPage : P → Value → ExceptW W PUnit
  closePage : P → ExceptW W PUnit
  closeCurrent : ExceptW W PUnit
  bringToFront : P → ExceptW W PUnit
  pageUrl : P → String
  titleOf : P → ExceptW W String
  reloadCurrent : ExceptW W PUnit
  currentUrl : W → String

/-- `TabAction._new_tab`: open a new page, navigate if `url` is truthy,
report the page count read after the operations. -/
def tabNew {W P : Type} (env : TabEnv W P) (url : Value) :
    ExceptW W ActionResult :=
  if !env.hasContext then
    pureW { success := false, action_name := "tab",
            error := some "Browser context not available" }
  else
    bindW env.newPage (fun newPage =>
      bindW (if vTruthy url then env.gotoPage newPage url
             else pureW PUnit.unit) (fun _ =>
        withW (fun w =>
          pureW { success := true, action_name := "tab",
                  data := some (.dict
                    [("tab_count", .nat (env.pages w).length)]),
                  metadata := [("operation", .str "new"), ("url", url)] })))

/-- `TabAction._close_tab`.  A non-integer, non-`None` `tab_index` raises at
the `0 <= tab_index < len(pages)` comparison — inside `execute`'s `try`. -/
def tabClose {W P : Type} (env : TabEnv W P) (tabIndex : Value) :
    ExceptW W ActionResult :=
  if !env.hasContext then
    pureW { success := false, action_name := "tab",
            error := some "Browser context not available" }
  else
    withW (fun w =>
      let pages := env.pages w
      if pages.length ≤ 1 then
        pureW { success := false, action_name := "tab",
                error := some "Cannot close the only tab" }
      else
        match tabIndex with
        | .null =>
          bindW env.closeCurrent (fun _ =>
            withW (fun wc =>
              pureW { success := true, action_name := "tab",
                      data := some (.dict
                        [("tab_count", .nat (env.pages wc).length)]),
                      metadata := [("operation", .str "close"),
                                   ("tab_index", tabIndex)] }))
        | .nat i =>
          if h : i < pages.length then
            bindW (env.closePage (pages.get ⟨i, h⟩)) (fun _ =>
              withW (fun wc =>
                pureW { success := true, action_name := "tab",
                        data := some (.dict
                          [("tab_count", .nat (env.pages wc).length)]),
                        metadata := [("operation", .str "close"),
                                     ("tab_index", tabIndex)] }))
          else
            pureW { success := false, action_name := "tab",
                    error := some ("Invalid tab index: " ++ vStr tabIndex) }
        | v =>
          throwW ("TypeError: '<=' not supported between instances of "
            ++ "'int' and " ++ pyTypeName v))

/-- `TabAction._switch_tab`. -/
def tabSwitch {W P : Type} (env : TabEnv W P) (tabIndex : Value) :
    ExceptW W ActionResult :=
  if !env.hasContext then
    pureW { success := false, action_name := "tab",
            error := some "Browser context not available" }
  else
    withW (fun w =>
      let pages := env.pages w
      match tabIndex with
      | .null =>
        pureW { success := false, action_name := "tab",
                error := some "tab_index required for switch operation" }
      | .nat i =>
        if h : i < pages.length then
          bindW (env.bringToFront (pages.get ⟨i, h⟩)) (fun _ =>
            pureW { success := true, action_name := "tab",
                    data := some (.dict
                      [("current_tab", tabIndex),
                       ("url", .str (env.pageUrl (pages.get ⟨i, h⟩)))]),
                    metadata := [("operation", .str "switch"),
                                 ("tab_index", tabIndex)] })
        else
          pureW { success := false, action_name := "tab",
                  error := some ("Invalid tab index: " ++ vStr tabIndex) }
      | v =>
        throwW ("TypeError: '<=' not supported between instances of "
          ++ "'int' and " ++ pyTypeName v))

/-- The page loop of `_list_tabs` (each `page.title()` may raise). -/
def tabListLoop {W P : Type} (env : TabEnv W P) :
    Nat → List P → List Value → ExceptW W (List Value)
  | _, [], acc => pureW acc
  | i, p :: rest, acc =>
    bindW (env.titleOf p) (fun title =>
      tabListLoop env (i + 1) rest (acc ++
        [.dict [("index", .nat i), ("url", .str (env.pageUrl p)),
                ("title", .str title)]]))

/-- `TabAction._list_tabs`. -/
def tabList {W P : Type} (env : TabEnv W P) : ExceptW W ActionResult :=
  if !env.hasContext then
    pureW { success := false, action_name := "tab",
            error := some "Browser context not available" }
  else
    withW (fun w =>
      bindW (tabListLoop env 0 (env.pages w) []) (fun tabs =>
        pureW { success := true, action_name := "tab",
                data := some (.list tabs),
                metadata := [("operation", .str "list"),
                             ("tab_count", .nat tabs.length)] }))

/-- `TabAction._reload`. -/
def tabReload {W P : Type} (env : TabEnv W P) : ExceptW W ActionResult :=
  bindW env.reloadCurrent (fun _ =>
    withW (fun w =>
      pureW { success := true, action_name := "tab",
              metadata := [("operation", .str "reload"),
                           ("url", .str (env.currentUrl w))] }))

/-- `TabAction.execute`.  The result is an `ExceptW` computation: a final
`.error` means the exception escaped `execute` to its caller — which
happens exactly when `operation.lower()` (line 48, before the `try`)
is evaluated on a truthy non-string. -/
def tabExecute {W P : Type} (env : TabEnv W P)
    (operation url tabIndex : Value) : ExceptW W ActionResult :=
  if !vTruthy operation then
    pureW { success := false, action_name := "tab",
            error := some
              "'operation' parameter required (new, close, switch, list)" }
  else
    bindW
      (match operation with
       | .str s => pureW (strLower s)
       | v => throwW ("AttributeError: " ++ pyTypeName v ++
           " object has no attribute 'lower'"))
      (fun op =>
        catchW
          (if op == "new" then tabNew env url
           else if op == "close" then tabClose env tabIndex
           else if op == "switch" then tabSwitch env tabIndex
           else if op == "list" then tabList env
           else if op == "reload" then tabReload env
           else
             pureW { success := false, action_name := "tab",
                     error := some ("Unknown operation: " ++ op) })
          (fun e => pureW { success := false, action_name := "tab",
                            error := some e }))

/-- Fixture: a one-page browser context over the unit world. -/
def tabUnitEnv : TabEnv Unit Unit :=
  { hasContext := true,
    pages := fun _ => [()],
    newPage := pureW (),
    gotoPage := fun _ _ => pureW PUnit.unit,
    closePage := fun _ => pureW PUnit.unit,
    closeCurrent := pureW PUnit.unit,
    bringToFront := fun _ => pureW PUnit.unit,
    pageUrl := fun _ => "about:blank",
    titleOf := fun _ => pureW "blank",
    reloadCurrent := pureW PUnit.unit,
    currentUrl := fun _ => "about:blank" }

/-- **C8 (counterexample).**  The claim says every registered action's
`execute` returns an `ActionResult` and never raises to its caller.
`TabAction` is registered as `"tab"`, and `operation.lower()` runs *before*
its `try` block: called with the truthy non-string `operation = 5`,
`execute` raises `AttributeError` to its caller instead of returning an
`ActionResult`. -/
theorem tabExecute_raises_counterexample :
    tabExecute tabUnitEnv (.nat 5) .null .null () =
      (.error "AttributeError: 'int' object has no attribute 'lower'",
       ()) := rfl

/-- **C8 (amended).**  The action execute contract on the two actions the
claim's sources cite
(`ExtractAction.execute`, `WaitAction.execute`, the two the spec's claim
cites): execution always returns an `ActionResult` — every raise inside the
`try` block is caught — and every failure carries a non-null error, whether
it is a missing required parameter (extract's selector validation) or a
driver exception (captured by the `except` clause as the result's error). -/
theorem extract_wait_execute_contract {W E : Type} (env : PageEnv W E)
    (selector attribV multiple saveAs timeout extractFields state duration
      waitFor : Value) (w : W) :
    ((extractExecute env selector attribV multiple saveAs timeout
        extractFields w).1.success = false →
      (extractExecute env selector attribV multiple saveAs timeout
        extractFields w).1.error.isSome = true) ∧
    ((waitExecute env selector timeout state duration waitFor w).1.success =
        false →
      (waitExecute env selector timeout state duration
        waitFor w).1.error.isSome = true) ∧
    (vTruthy selector = false →
      extractExecute env selector attribV multiple saveAs timeout
          extractFields w =
        ({ success := false, action_name := "extract",
           error := some "'selector' parameter is required" }, w)) ∧
    (∀ e w₁, vTruthy selector = true →
      extractTry env selector
          (if vTruthy attribV && !isStr attribV then .null else attribV)
          multiple saveAs timeout extractFields w = (.error e, w₁) →
      extractExecute env selector attribV multiple saveAs timeout
          extractFields w =
        ({ success := false, action_name := "extract", error := some e,
           metadata := [("selector", selector)] }, w₁)) := by
  refine ⟨?_, ?_, ?_, ?_⟩
  · by_cases hs : vTruthy selector = true
    · unfold extractExecute
      simp only [hs, Bool.not_true, Bool.false_eq_true, if_false]
      rcases ht : extractTry env selector
          (if vTruthy attribV && !isStr attribV then .null else attribV)
          multiple saveAs timeout extractFields w with ⟨rt, wt⟩
      cases rt with
      | ok rr =>
        dsimp only
        exact extractTry_ok env selector _ multiple saveAs timeout
          extractFields w wt rr ht
      | error e =>
        dsimp only
        intro _
        rfl
    · have hs' : vTruthy selector = false := by simpa using hs
      unfold extractExecute
      simp only [hs', Bool.not_false, if_true]
      intro _
      rfl
  · rcases ht : waitTry env selector timeout state duration waitFor w with
      ⟨rt, wt⟩
    unfold waitExecute
    rw [ht]
    cases rt with
    | ok rr =>
      exact waitTry_ok env selector timeout state duration waitFor w wt rr ht
    | error e =>
      intro _
      rfl
  · intro hs'
    unfold extractExecute
    simp only [hs', Bool.not_false, if_true]
  · intro e w₁ hs htr
    unfold extractExecute
    simp only [hs, Bool.not_true, Bool.false_eq_true, if_false, htr]

/-- Fixture: the trivial page whose `wait_for_selector` raises a timeout. -/
def raiseWaitPage : PageEnv Unit Unit :=
  { unitPage with
    waitForSelector := fun _ _ _ => throwW "Timeout 30000ms exceeded" }

/-- Witness for C8: the missing-selector validation failure and a captured
driver timeout, both returned as failed `ActionResult`s. -/
theorem extract_wait_execute_contract_witness :
    (extractExecute unitPage .null .null .null .null (.nat 5000) .null () =
      ({ success := false, action_name := "extract",
         error := some "'selector' parameter is required" }, ())) ∧
    (extractExecute raiseWaitPage (.str "#jobs") .null .null .null
        (.nat 5000) .null () =
      ({ success := false, action_name := "extract",
         error := some "Timeout 30000ms exceeded",
         metadata := [("selector", .str "#jobs")] }, ())) :=
  ⟨(extract_wait_execute_contract unitPage .null .null .null .null
      (.nat 5000) .null .null .null .null ()).2.2.1 rfl,
   (extract_wait_execute_contract raiseWaitPage (.str "#jobs") .null .null
      .null (.nat 5000) .null .null .null .null ()).2.2.2
     "Timeout 30000ms exceeded" () rfl rfl⟩

/-- `taskAttempt` preserves the task's action name. -/
theorem taskAttempt_action {W : Type} (env : ExecEnv W) (mR : Nat)
    (st : ExecState W) (task : PlanTask) (rc : Nat) :
    (taskAttempt env mR st task rc).2.1.action = task.action := by
  rcases taskAttempt_task env mR st task rc with h | ⟨_, s, h⟩ <;> rw [h]

/-- When the environment fails every execution of the task's action, the
repair step still ends in failure. -/
theorem repairExtract_fail {W : Type} (env : ExecEnv W) (mR : Nat)
    (st2 : ExecState W) (task : PlanTask) (result : ActionResult)
    (calls rc : Nat)
    (hf : ∀ w p, (env.step w task.action p).1.success = false)
    (hres : result.success = false) :
    (repairExtract env mR st2 task result calls rc).2.2.1.success = false := by
  unfold repairExtract
  split
  next d =>
    split
    · split
      next sel0 rest _ =>
        split
        · rcases hs : env.step st2.world task.action
              (dictSet task.params "selector"
                (.str (splitFirst sel0 " ("))) with ⟨r', w2⟩
          have := hf st2.world
            (dictSet task.params "selector" (.str (splitFirst sel0 " (")))
          rw [hs] at this
          simpa [hs] using this
        · exact hres
      next _ => exact hres
    · exact hres
  next => exact hres

/-- When the environment fails every execution of the task's action (or the
action is unregistered), one `taskAttempt` produces a failed result. -/
theorem taskAttempt_fail {W : Type} (env : ExecEnv W) (mR : Nat)
    (st : ExecState W) (task : PlanTask) (rc : Nat)
    (hf : ∀ w p, (env.step w task.action p).1.success = false) :
    (taskAttempt env mR st task rc).2.2.1.success = false := by
  by_cases hreg : task.action ∈ registryNames
  · unfold taskAttempt
    rcases hs : env.step st.world task.action task.params with ⟨result, w1⟩
    have hres : result.success = false := by
      have := hf st.world task.params
      rw [hs] at this
      exact this
    simp only [if_pos hreg, hs]
    by_cases hx : (task.action == "extract") = true
    · simp only [hres, Bool.not_false, Bool.true_and, hx, if_true]
      exact repairExtract_fail env mR _ task result 1 rc hf hres
    · have hx' : (task.action == "extract") = false := by simpa using hx
      simp only [hres, Bool.not_false, Bool.true_and, hx', Bool.false_eq_true,
                 if_false]
  · rw [taskAttempt_unknown env mR st task rc hreg]

/-- A task whose action fails in every world and with any params fails even
after all its retries, with its action name preserved. -/
theorem executeTaskGo_fail {W : Type} (env : ExecEnv W) (mR : Nat)
    (a : String) (hf : ∀ w p, (env.step w a p).1.success = false) :
    ∀ (fuel : Nat) (st : ExecState W) (task : PlanTask) (rc : Nat),
      task.action = a →
      (executeTaskGo env mR fuel st task rc).result.success = false ∧
      (executeTaskGo env mR fuel st task rc).task.action = a := by
  intro fuel
  induction fuel with
  | zero =>
    intro st task rc ha
    subst ha
    rcases hat : taskAttempt env mR st task rc with ⟨st1, task1, result, calls⟩
    have h1 := taskAttempt_fail env mR st task rc hf
    have h2 := taskAttempt_action env mR st task rc
    rw [hat] at h1 h2
    simp only [executeTaskGo, hat, taskFinish_result, taskFinish_task]
    exact ⟨h1, h2⟩
  | succ f ih =>
    intro st task rc ha
    subst ha
    rcases hat : taskAttempt env mR st task rc with ⟨st1, task1, result, calls⟩
    have h1 := taskAttempt_fail env mR st task rc hf
    have h2 := taskAttempt_action env mR st task rc
    rw [hat] at h1 h2
    dsimp only at h1 h2
    simp only [executeTaskGo, hat]
    by_cases hrc : rc < mR
    · simp only [h1, Bool.not_false, Bool.true_and, hrc, decide_True, if_true]
      have := ih (if containsTimeout
            (match result.error with | some e => e | none => "None") then
          { st1 with world := env.reload st1.world } else st1) task1 (rc + 1)
        h2
      exact this
    · simp only [h1, Bool.not_false, Bool.true_and, hrc, decide_False,
                 Bool.and_false, Bool.false_eq_true, if_false,
                 taskFinish_result, taskFinish_task]
      exact ⟨trivial, h2⟩

/-- A registered action that succeeds on first execution: `taskAttempt`
returns that success with the task untouched (the repair path needs a
failure to fire). -/
theorem taskAttempt_success {W : Type} (env : ExecEnv W) (mR : Nat)
    (st : ExecState W) (task : PlanTask) (rc : Nat)
    (result : ActionResult) (w1 : W)
    (hreg : task.action ∈ registryNames)
    (hs : env.step st.world task.action task.params = (result, w1))
    (hok : result.success = true) :
    taskAttempt env mR st task rc =
      (storeInspect { st with world := w1 } task.action result, task,
       result, 1) := by
  unfold taskAttempt
  simp only [if_pos hreg, hs, hok, Bool.not_true, Bool.false_and,
             Bool.false_eq_true, if_false]

/-- A registered action that succeeds in every world: `execute_task`
returns success on the first attempt, with the task untouched. -/
theorem executeTask_success {W : Type} (env : ExecEnv W) (mR : Nat)
    (st : ExecState W) (task : PlanTask)
    (hreg : task.action ∈ registryNames)
    (hs : ∀ w, (env.step w task.action task.params).1.success = true) :
    (executeTask env mR st task).result.success = true ∧
    (executeTask env mR st task).task = task := by
  rcases hstep : env.step st.world task.action task.params with ⟨result, w1⟩
  have hok : result.success = true := by
    have := hs st.world
    rw [hstep] at this
    exact this
  have hat := taskAttempt_success env mR st task 0 result w1 hreg hstep hok
  unfold executeTask
  simp only [executeTaskGo, hat, hok, Bool.not_true, Bool.false_and,
             Bool.false_eq_true, if_false, taskFinish_result, taskFinish_task]
  exact ⟨trivial, trivial⟩

/-- One plan attempt over `pre ++ tK :: rest` where every task of `pre`
succeeds on first execution and `tK`'s action always fails
(`stop_on_error = true`): the attempt runs `pre`, fails at `tK`, breaks,
and reports `failed_task.index = i + pre.length` with `pre` untouched and
`tK`'s action preserved. -/
theorem runTasks_spec {W : Type} (env : ExecEnv W) (mR : Nat) (a : String)
    (hf : ∀ w p, (env.step w a p).1.success = false) :
    ∀ (pre : List PlanTask) (tK : PlanTask) (rest : List PlanTask)
      (i sc : Nat) (st : ExecState W) (fl : Option FailedTask),
      (∀ t ∈ pre, t.action ∈ registryNames ∧
        ∀ w, (env.step w t.action t.params).1.success = true) →
      tK.action = a →
      ∃ st' tK' e, runTasks env mR true st (pre ++ tK :: rest) i sc fl =
        (st', pre ++ tK' :: rest, sc + pre.length,
         some { task := tK', error := e, index := i + pre.length }) ∧
        tK'.action = a := by
  intro pre
  induction pre with
  | nil =>
    intro tK rest i sc st fl _ ha
    obtain ⟨hfail, hact⟩ := executeTaskGo_fail env mR a hf (mR + 1) st tK 0 ha
    have hfail' : (executeTask env mR st tK).result.success = false := hfail
    refine ⟨(executeTask env mR st tK).state, (executeTask env mR st tK).task,
            (executeTask env mR st tK).result.error, ?_, hact⟩
    show runTasks env mR true st ([] ++ tK :: rest) i sc fl = _
    simp only [List.nil_append, runTasks, hfail', Bool.false_eq_true,
               if_false, if_true, List.length_nil, Nat.add_zero]
  | cons p pre' ih =>
    intro tK rest i sc st fl hpre ha
    obtain ⟨hpreg, hpok⟩ := hpre p (by simp)
    obtain ⟨hsucc, htask⟩ := executeTask_success env mR st p hpreg hpok
    obtain ⟨st', tK', e, heq, hact⟩ := ih tK rest (i + 1) (sc + 1)
      (executeTask env mR st p).state fl
      (fun t ht => hpre t (by simp [ht])) ha
    refine ⟨st', tK', e, ?_, hact⟩
    show runTasks env mR true st ((p :: pre') ++ tK :: rest) i sc fl = _
    simp only [List.cons_append, runTasks, hsucc, if_true, htask,
               List.append_eq]
    rw [heq]
    simp only [Prod.mk.injEq, Option.some.injEq, FailedTask.mk.injEq,
               List.length_cons, true_and, and_true]
    omega

/-- The whole-plan retry loop under a prefix of first-try successes and an
always-failing task after them (`stop_on_error = retry_full_plan = true`):
every attempt fails at that task, the loop retries until
`plan_attempts = max_plan_attempts (= max_retries)`, and exits with the
failure of the last attempt at index `pre.length`. -/
theorem planLoop_spec {W : Type} (env : ExecEnv W) (mR : Nat) (a : String)
    (hf : ∀ w p, (env.step w a p).1.success = false)
    (pre : List PlanTask)
    (hpre : ∀ t ∈ pre, t.action ∈ registryNames ∧
      ∀ w, (env.step w t.action t.params).1.success = true) :
    ∀ (fuel attempts : Nat) (tK : PlanTask) (rest : List PlanTask)
      (st : ExecState W),
      1 ≤ fuel → fuel + attempts = mR → tK.action = a →
      ∃ st' tK' e,
        planLoop env mR true true (pre ++ tK :: rest) fuel attempts st =
          (st', pre ++ tK' :: rest,
           .failed pre.length mR
             (some { task := tK', error := e, index := pre.length })) ∧
        tK'.action = a := by
  intro fuel
  induction fuel with
  | zero =>
    intro attempts tK rest st h1 _ _
    exact absurd h1 (by omega)
  | succ f ih =>
    intro attempts tK rest st h1 h2 ha
    obtain ⟨st1, tK1, e1, hrun, hact1⟩ :=
      runTasks_spec env mR a hf pre tK rest 0 0 st none hpre ha
    have hne : ¬(pre.length = (pre ++ tK1 :: rest).length) := by
      simp [List.length_append]
    by_cases hlast : attempts + 1 ≥ mR
    · have hatt : attempts + 1 = mR := by omega
      refine ⟨st1, tK1, e1, ?_, hact1⟩
      simp only [planLoop, hrun, Nat.zero_add, Bool.not_true,
                 Bool.false_eq_true, if_false, hatt]
      rw [if_neg hne, if_pos (le_refl mR)]
    · have hf1 : 1 ≤ f := by omega
      have hf2 : f + (attempts + 1) = mR := by omega
      obtain ⟨st', tK', e, hrec, hact⟩ := ih (attempts + 1) tK1 rest st1
        hf1 hf2 hact1
      refine ⟨st', tK', e, ?_, hact⟩
      simp only [planLoop, hrun, Nat.zero_add, Bool.not_true,
                 Bool.false_eq_true, if_false]
      rw [if_neg hne, if_neg hlast]
      exact hrec

/-- **C3.**  For a non-empty task list where the tasks before position `k`
succeed on first execution and the task at `k` always fails (so it fails
after exhausting its per-task retries), with `stop_on_error=true` and
`retry_full_plan=true`, `execute_plan` re-runs the plan from the first task
on every attempt and returns `success=false`, `attempts` equal to
`max_plan_attempts` (which the code sets to `max_retries`), and
`failed_task.index` equal to `k`, the 0-based position of the first
unrecoverably failing task. -/
theorem executePlan_unrecoverable_failure {W : Type} (env : ExecEnv W)
    (mR : Nat) (st : ExecState W) (tasks : List PlanTask) (goal : String)
    (k : Nat) (hk : k < tasks.length) (hmr : 1 ≤ mR)
    (hpre : ∀ t ∈ tasks.take k, t.action ∈ registryNames ∧
      ∀ w, (env.step w t.action t.params).1.success = true)
    (hfail : ∀ w p,
      (env.step w (tasks.get ⟨k, hk⟩).action p).1.success = false) :
    ∃ r f, (executePlan env mR st tasks goal true true).2.2 = some r ∧
      r.success = false ∧ r.attempts = some mR ∧
      r.failed_task = some f ∧ f.index = k := by
  have hsplit : tasks.take k ++ tasks.get ⟨k, hk⟩ :: tasks.drop (k + 1) =
      tasks := by
    simp only [List.get_eq_getElem]
    rw [← List.drop_eq_getElem_cons hk, List.take_append_drop]
  have hlen : (tasks.take k).length = k := by
    simp only [List.length_take]
    omega
  have hne : tasks.isEmpty = false := by
    cases tasks with
    | nil => simp at hk
    | cons a t => rfl
  obtain ⟨st', tK', e, hloop, hact⟩ := planLoop_spec env mR
    (tasks.get ⟨k, hk⟩).action hfail (tasks.take k) hpre mR 0
    (tasks.get ⟨k, hk⟩) (tasks.drop (k + 1)) (planStart env st goal) hmr
    (by omega) rfl
  rw [hsplit] at hloop
  unfold executePlan
  simp only [hne, Bool.false_eq_true, if_false, hloop]
  exact ⟨_, _, rfl, rfl, rfl, rfl, hlen⟩

/-- Fixture: an environment where every action succeeds except `wait`,
which always fails. -/
def planEnv : ExecEnv Unit :=
  { step := fun w n _ =>
      ({ success := n != "wait", action_name := n,
         error := if n == "wait" then some "boom" else none }, w),
    reload := id }

/-- Fixture: a four-task plan whose second task (index 1) always fails
under `planEnv`. -/
def planTasks : List PlanTask :=
  [{ action := "click" }, { action := "wait" },
   { action := "click" }, { action := "click" }]

/-- Witness for C3: the spec's scenario — `max_plan_attempts = 3`, task 2
of 4 always fails — ends with `success=false`, `attempts = 3`,
`failed_task.index = 1`. -/
theorem executePlan_unrecoverable_failure_witness :
    ∃ r f, (executePlan planEnv 3
        { world := (), logger := { logs_dir := "./logs" } } planTasks
        "collect" true true).2.2 = some r ∧
      r.success = false ∧ r.attempts = some 3 ∧
      r.failed_task = some f ∧ f.index = 1 :=
  executePlan_unrecoverable_failure planEnv 3
    { world := (), logger := { logs_dir := "./logs" } } planTasks "collect" 1
    (by decide) (by decide)
    (by
      intro t ht
      simp only [planTasks, List.take, List.mem_singleton] at ht
      subst ht
      exact ⟨by decide, fun w => rfl⟩)
    (fun w p => rfl)

/-- The entry `execute_task` appends to `collected_data` for a successful
extraction-class result with truthy data, and leaves it alone otherwise
(lines 154–160 of `executor.py`). -/
def collectedDelta (task : PlanTask) (result : ActionResult) :
    List CollectedEntry :=
  if result.success &&
      (match result.data with | some d => vTruthy d | none => false) &&
      (task.action ∈ ["extract", "loop"]) then
    match result.data with
    | some d => [{ action := task.action, data := d,
                   save_as := dictFind task.params "save_as" }]
    | none => []
  else []

/-- `storeInspect` does not touch `collected_data`. -/
theorem storeInspect_collected {W : Type} (st : ExecState W) (a : String)
    (r : ActionResult) :
    (storeInspect st a r).collected_data = st.collected_data := by
  unfold storeInspect
  split
  · split <;> rfl
  · rfl

/-- The repair step does not touch `collected_data`. -/
theorem repairExtract_collected {W : Type} (env : ExecEnv W) (mR : Nat)
    (st2 : ExecState W) (task : PlanTask) (result : ActionResult)
    (calls rc : Nat) :
    (repairExtract env mR st2 task result calls rc).1.collected_data =
      st2.collected_data := by
  unfold repairExtract
  split
  next d =>
    split
    · split
      next sel0 rest _ =>
        split
        · rcases hs : env.step st2.world task.action
              (dictSet task.params "selector"
                (.str (splitFirst sel0 " ("))) with ⟨r', w2⟩
          simp only [hs]
        · rfl
      next _ => rfl
    · rfl
  next => rfl

/-- `taskAttempt` does not touch `collected_data`. -/
theorem taskAttempt_collected {W : Type} (env : ExecEnv W) (mR : Nat)
    (st : ExecState W) (task : PlanTask) (rc : Nat) :
    (taskAttempt env mR st task rc).1.collected_data =
      st.collected_data := by
  unfold taskAttempt
  by_cases hreg : task.action ∈ registryNames
  · rcases hs : env.step st.world task.action task.params with ⟨result, w1⟩
    simp only [if_pos hreg, hs]
    split
    · rw [repairExtract_collected, storeInspect_collected]
    · rw [storeInspect_collected]
  · simp only [if_neg hreg]
    have hex : (task.action == "extract") = false := by
      by_contra hne
      have : task.action = "extract" := by
        simpa using Bool.of_not_eq_false hne
      exact hreg (this ▸ (by decide : "extract" ∈ registryNames))
    simp only [Bool.not_false, Bool.true_and, hex, Bool.false_eq_true,
               if_false]
    rw [storeInspect_collected]

/-- `taskFinish` appends exactly `collectedDelta` to `collected_data`. -/
theorem taskFinish_collected {W : Type} (st : ExecState W) (task : PlanTask)
    (result : ActionResult) (stats : TaskStats) :
    (taskFinish st task result stats).state.collected_data =
      st.collected_data ++ collectedDelta task result := by
  unfold taskFinish collectedDelta
  split
  · split <;> simp
  · simp

/-- `execute_task` (with retries) changes `collected_data` precisely by the
final log-and-collect step: the output list is the input list with exactly
`collectedDelta` of the final task/result appended. -/
theorem executeTaskGo_collected {W : Type} (env : ExecEnv W) (mR : Nat) :
    ∀ (fuel : Nat) (st : ExecState W) (task : PlanTask) (rc : Nat),
      (executeTaskGo env mR fuel st task rc).state.collected_data =
        st.collected_data ++
          collectedDelta (executeTaskGo env mR fuel st task rc).task
            (executeTaskGo env mR fuel st task rc).result := by
  intro fuel
  induction fuel with
  | zero =>
    intro st task rc
    rcases hat : taskAttempt env mR st task rc with ⟨st1, task1, result, calls⟩
    have hcoll := taskAttempt_collected env mR st task rc
    rw [hat] at hcoll
    dsimp only at hcoll
    simp only [executeTaskGo, hat, taskFinish_collected, taskFinish_task,
               taskFinish_result, hcoll]
  | succ f ih =>
    intro st task rc
    rcases hat : taskAttempt env mR st task rc with ⟨st1, task1, result, calls⟩
    have hcoll := taskAttempt_collected env mR st task rc
    rw [hat] at hcoll
    dsimp only at hcoll
    simp only [executeTaskGo, hat]
    by_cases hcond : (!result.success && decide (rc < mR)) = true
    · simp only [hcond, if_true]
      have := ih (if containsTimeout
            (match result.error with | some e => e | none => "None") then
          { st1 with world := env.reload st1.world } else st1) task1 (rc + 1)
      rw [this]
      have hmid : (if containsTimeout
            (match result.error with | some e => e | none => "None") then
          { st1 with world := env.reload st1.world }
          else st1).collected_data = st.collected_data := by
        split <;> simpa using hcoll
      rw [hmid]
    · simp only [hcond, Bool.false_eq_true, if_false, taskFinish_collected,
                 taskFinish_task, taskFinish_result, hcoll]

/-- One plan attempt only ever appends to `collected_data`. -/
theorem runTasks_collected {W : Type} (env : ExecEnv W) (mR : Nat)
    (so : Bool) :
    ∀ (rem : List PlanTask) (i sc : Nat) (fl : Option FailedTask)
      (st : ExecState W),
      ∃ tail, (runTasks env mR so st rem i sc fl).1.collected_data =
        st.collected_data ++ tail := by
  intro rem
  induction rem with
  | nil =>
    intro i sc fl st
    exact ⟨[], by simp [runTasks]⟩
  | cons task rest ih =>
    intro i sc fl st
    have hout : (executeTask env mR st task).state.collected_data =
        st.collected_data ++
          collectedDelta (executeTask env mR st task).task
            (executeTask env mR st task).result :=
      executeTaskGo_collected env mR (mR + 1) st task 0
    by_cases hsucc : (executeTask env mR st task).result.success = true
    · obtain ⟨t2, ht2⟩ := ih (i + 1) (sc + 1) fl (executeTask env mR st task).state
      rcases hrec : runTasks env mR so (executeTask env mR st task).state rest
          (i + 1) (sc + 1) fl with ⟨st', rest', sc', f'⟩
      rw [hrec] at ht2
      dsimp only at ht2
      refine ⟨collectedDelta (executeTask env mR st task).task
          (executeTask env mR st task).result ++ t2, ?_⟩
      simp only [runTasks, hsucc, if_true, hrec]
      rw [ht2]
      show (executeTask env mR st task).state.collected_data ++ t2 = _
      rw [hout, List.append_assoc]
    · have hsucc' : (executeTask env mR st task).result.success = false := by
        simpa using hsucc
      by_cases hso : so = true
      · subst hso
        refine ⟨collectedDelta (executeTask env mR st task).task
            (executeTask env mR st task).result, ?_⟩
        simp only [runTasks, hsucc', Bool.false_eq_true, if_false, if_true]
        exact hout
      · have hso' : so = false := by simpa using hso
        subst hso'
        obtain ⟨t2, ht2⟩ := ih (i + 1) sc
          (some { task := (executeTask env mR st task).task,
                  error := (executeTask env mR st task).result.error,
                  index := i }) (executeTask env mR st task).state
        rcases hrec : runTasks env mR false (executeTask env mR st task).state
            rest (i + 1) sc
            (some { task := (executeTask env mR st task).task,
                    error := (executeTask env mR st task).result.error,
                    index := i }) with ⟨st', rest', sc', f'⟩
        rw [hrec] at ht2
        dsimp only at ht2
        refine ⟨collectedDelta (executeTask env mR st task).task
            (executeTask env mR st task).result ++ t2, ?_⟩
        simp only [runTasks, hsucc', Bool.false_eq_true, if_false, hrec]
        rw [ht2]
        show (executeTask env mR st task).state.collected_data ++ t2 = _
        rw [hout, List.append_assoc]

/-- The whole-plan retry loop only ever appends to `collected_data`:
nothing clears it between plan attempts. -/
theorem planLoop_collected {W : Type} (env : ExecEnv W) (mR : Nat)
    (so rf : Bool) :
    ∀ (fuel : Nat) (tasks : List PlanTask) (attempts : Nat)
      (st : ExecState W),
      ∃ tail, (planLoop env mR so rf tasks fuel attempts st).1.collected_data
        = st.collected_data ++ tail := by
  intro fuel
  induction fuel with
  | zero =>
    intro tasks attempts st
    exact ⟨[], by simp [planLoop]⟩
  | succ f ih =>
    intro tasks attempts st
    obtain ⟨t1, ht1⟩ := runTasks_collected env mR so tasks 0 0 none st
    rcases hrun : runTasks env mR so st tasks 0 0 none with
      ⟨st1, tasks1, successCount, failed⟩
    rw [hrun] at ht1
    dsimp only at ht1
    simp only [planLoop, hrun]
    by_cases hall : successCount = tasks1.length
    · simp only [hall, if_true]
      exact ⟨t1, ht1⟩
    · simp only [hall, if_false]
      by_cases hrf : (!rf) = true
      · simp only [hrf, if_true]
        exact ⟨t1, ht1⟩
      · simp only [hrf, Bool.false_eq_true, if_false]
        by_cases hlast : attempts + 1 ≥ mR
        · simp only [hlast, if_true]
          exact ⟨t1, ht1⟩
        · simp only [hlast, if_false]
          obtain ⟨t2, ht2⟩ := ih tasks1 (attempts + 1) st1
          refine ⟨t1 ++ t2, ?_⟩
          rw [ht2, ht1, List.append_assoc]

/-- **C9.**  `collected_data` is reset exactly once, at the start of
`execute_plan`, and is never cleared afterwards: (1) the caller's previous
`collected_data` is irrelevant to a non-empty plan run (the reset at the
start); (2) the whole-plan retry loop only ever appends — entries collected
in earlier failed attempts survive into later attempts, duplicates
included; (3) each `execute_task` call appends exactly its
collection delta (one entry for a successful extraction-class result with
truthy data, nothing otherwise); and (4) the summary dict returned for a
non-empty plan exposes exactly the final accumulated list. -/
theorem executePlan_collected_data_accumulates :
    (∀ (W : Type) (env : ExecEnv W) (mR : Nat) (st : ExecState W)
       (c : List CollectedEntry) (tasks : List PlanTask) (goal : String)
       (so rf : Bool), tasks ≠ [] →
       executePlan env mR st tasks goal so rf =
         executePlan env mR { st with collected_data := c } tasks goal
           so rf) ∧
    (∀ (W : Type) (env : ExecEnv W) (mR : Nat) (so rf : Bool)
       (fuel : Nat) (tasks : List PlanTask) (attempts : Nat)
       (st : ExecState W),
       ∃ tail,
         (planLoop env mR so rf tasks fuel attempts st).1.collected_data =
           st.collected_data ++ tail) ∧
    (∀ (W : Type) (env : ExecEnv W) (mR : Nat) (st : ExecState W)
       (task : PlanTask),
       (executeTask env mR st task).state.collected_data =
         st.collected_data ++
           collectedDelta (executeTask env mR st task).task
             (executeTask env mR st task).result) ∧
    (∀ (W : Type) (env : ExecEnv W) (mR : Nat) (st : ExecState W)
       (tasks : List PlanTask) (goal : String) (so rf : Bool)
       (r : PlanResult), tasks ≠ [] →
       (executePlan env mR st tasks goal so rf).2.2 = some r →
       r.collected_data =
         some (executePlan env mR st tasks goal so rf).1.collected_data) := by
  refine ⟨?_, ?_, ?_, ?_⟩
  · intro W env mR st c tasks goal so rf hne
    cases tasks with
    | nil => exact absurd rfl hne
    | cons t ts => rfl
  · intro W env mR so rf fuel tasks attempts st
    exact planLoop_collected env mR so rf fuel tasks attempts st
  · intro W env mR st task
    exact executeTaskGo_collected env mR (mR + 1) st task 0
  · intro W env mR st tasks goal so rf r hne hsome
    cases tasks with
    | nil => exact absurd rfl hne
    | cons t ts =>
      unfold executePlan at hsome ⊢
      simp only [List.isEmpty_cons, Bool.false_eq_true, if_false]
        at hsome ⊢
      rcases hloop : planLoop env mR so rf (t :: ts) mR 0
          (planStart env st goal) with ⟨st2, tasks2, exit⟩
      rw [hloop] at hsome
      cases exit with
      | success sc att =>
        dsimp only at hsome ⊢
        obtain rfl := (Option.some.inj hsome).symm
        rfl
      | failed sc att failed =>
        dsimp only at hsome ⊢
        obtain rfl := (Option.some.inj hsome).symm
        rfl
      | crash =>
        dsimp only at hsome
        exact absurd hsome (by simp)

/-- Witness for C9 on concrete runs: the caller's stale `collected_data`
does not affect a non-empty plan, the plan loop only appends, a task
appends its delta, and the summary exposes the accumulated list. -/
theorem executePlan_collected_data_accumulates_witness :
    (executePlan planEnv 3 { world := (), logger := { logs_dir := "./logs" } }
        planTasks "collect" true true =
      executePlan planEnv 3
        { world := (), logger := { logs_dir := "./logs" },
          collected_data :=
            [{ action := "extract", data := .str "stale", save_as := none }] }
        planTasks "collect" true true) ∧
    (∃ tail,
      (planLoop planEnv 3 true true planTasks 3 0
          { world := (), logger := { logs_dir := "./logs" } }).1.collected_data
        = ({ world := (), logger := { logs_dir := "./logs" } } :
            ExecState Unit).collected_data ++ tail) ∧
    ((executeTask planEnv 3 { world := (), logger := { logs_dir := "./logs" } }
        { action := "extract",
          params := [("selector", .str ".x")] }).state.collected_data =
      ({ world := (), logger := { logs_dir := "./logs" } } :
          ExecState Unit).collected_data ++
        collectedDelta
          (executeTask planEnv 3
            { world := (), logger := { logs_dir := "./logs" } }
            { action := "extract", params := [("selector", .str ".x")] }).task
          (executeTask planEnv 3
            { world := (), logger := { logs_dir := "./logs" } }
            { action := "extract",
              params := [("selector", .str ".x")] }).result) ∧
    (({ success := true, error := none, total_tasks := some 1,
        completed_tasks := some 1, attempts := some 1, failed_task := none,
        collected_data := some [], log_path := some "./logs/session_.json" } :
          PlanResult).collected_data =
      some (executePlan planEnv 1
          { world := (), logger := { logs_dir := "./logs" } }
          [{ action := "click" }] "collect" true true).1.collected_data) :=
  ⟨executePlan_collected_data_accumulates.1 Unit planEnv 3
      { world := (), logger := { logs_dir := "./logs" } }
      [{ action := "extract", data := .str "stale", save_as := none }]
      planTasks "collect" true true (List.cons_ne_nil _ _),
   executePlan_collected_data_accumulates.2.1 Unit planEnv 3 true true 3
      planTasks 0 { world := (), logger := { logs_dir := "./logs" } },
   executePlan_collected_data_accumulates.2.2.1 Unit planEnv 3
      { world := (), logger := { logs_dir := "./logs" } }
      { action := "extract", params := [("selector", .str ".x")] },
   executePlan_collected_data_accumulates.2.2.2 Unit planEnv 1
      { world := (), logger := { logs_dir := "./logs" } }
      [{ action := "click" }] "collect" true true
      { success := true, error := none, total_tasks := some 1,
        completed_tasks := some 1, attempts := some 1, failed_task := none,
        collected_data := some [], log_path := some "./logs/session_.json" }
      (List.cons_ne_nil _ _) rfl⟩
